import Mathlib

/-!
Shallow embedding of the Order Lifecycle & Result Reconciliation Engine of the
Iq-Option-bot repository (src/result_watcher.py, src/execution.py, src/bot.py),
together with theorems settling the specification claims about it.

Python floats are modelled as rationals (ℚ), Python ints as ℤ, and the
dynamically typed payload dictionaries as an inductive `PyVal` type.  Fallible
Python code (code that can raise) is modelled with `Except PyErr`.
-/

namespace IqBot

/-- Dynamic Python values as they occur in the payload dictionaries of the
repository: `None`, booleans, ints, floats (as ℚ), strings, lists and
string-keyed dictionaries. -/
inductive PyVal where
  | none : PyVal
  | bool : Bool → PyVal
  | int : ℤ → PyVal
  | float : ℚ → PyVal
  | str : String → PyVal
  | list : List PyVal → PyVal
  | dict : List (String × PyVal) → PyVal
  deriving Repr

/-- Python exception kinds relevant to the embedded code. -/
inductive PyErr where
  | typeError : PyErr
  | valueError : PyErr
  | attributeError : PyErr
  | runtimeError : PyErr
  | other : PyErr
  deriving Repr, DecidableEq

mutual

/-- Structural equality on `PyVal` (models `==` on the payload values the
claims exercise; keys used by the code are strings and ints). -/
def PyVal.beq : PyVal → PyVal → Bool
  | .none, .none => true
  | .bool a, .bool b => a == b
  | .int a, .int b => a == b
  | .float a, .float b => a == b
  | .str a, .str b => a == b
  | .list xs, .list ys => PyVal.beqList xs ys
  | .dict xs, .dict ys => PyVal.beqKvs xs ys
  | _, _ => false

/-- Elementwise equality of `PyVal` lists. -/
def PyVal.beqList : List PyVal → List PyVal → Bool
  | [], [] => true
  | x :: xs, y :: ys => PyVal.beq x y && PyVal.beqList xs ys
  | _, _ => false

/-- Pairwise equality of dictionary entry lists. -/
def PyVal.beqKvs : List (String × PyVal) → List (String × PyVal) → Bool
  | [], [] => true
  | (k, v) :: xs, (l, w) :: ys => k == l && PyVal.beq v w && PyVal.beqKvs xs ys
  | _, _ => false

end

instance : BEq PyVal := ⟨PyVal.beq⟩

/-- Python truthiness: `None`, `False`, zero, the empty string, the empty list
and the empty dict are falsy; everything else is truthy. -/
def pyTruthy : PyVal → Bool
  | .none => false
  | .bool b => b
  | .int n => n != 0
  | .float q => q != 0
  | .str s => s ≠ ""
  | .list xs => !xs.isEmpty
  | .dict kvs => !kvs.isEmpty

/-- Python `v is None` on the modelled values. -/
def pyIsNone : PyVal → Bool
  | .none => true
  | _ => false

/-- Python `a or b` on values: returns `a` when `a` is truthy, else `b`. -/
def pyOr (a b : PyVal) : PyVal := if pyTruthy a then a else b

/-- Python `d.get(k, default)` on a dictionary entry list `d`. -/
def dictGetD (kvs : List (String × PyVal)) (k : String) (default : PyVal) : PyVal :=
  match kvs.find? (fun p => p.1 == k) with
  | some p => p.2
  | Option.none => default

/-- Python `v.get(k, default)` where `v` may be any value: non-dicts raise
`AttributeError` (no `.get` attribute), as in Python. -/
def pyGet (v : PyVal) (k : String) (default : PyVal) : Except PyErr PyVal :=
  match v with
  | .dict kvs => .ok (dictGetD kvs k default)
  | _ => .error .attributeError

/-- Whitespace as stripped by Python `str.strip()` (the characters the
embedded strings can contain). -/
def isPySpace (c : Char) : Bool :=
  c == ' ' || c == '\t' || c == '\n' || c == '\r'

/-- Python `s.strip()`, computed on the character list (kept
kernel-reducible on purpose). -/
def pyStrip (s : String) : String :=
  ⟨(((s.data.dropWhile isPySpace).reverse.dropWhile isPySpace).reverse : List Char)⟩

/-- ASCII lower-casing of one character (the labels the code compares are
ASCII). -/
def lowerChar (c : Char) : Char :=
  if 'A' ≤ c ∧ c ≤ 'Z' then Char.ofNat (c.toNat + 32) else c

/-- Python `s.lower()` on the embedded (ASCII) label strings. -/
def pyLower (s : String) : String := ⟨s.data.map lowerChar⟩

/-- Decimal digit test. -/
def isDigitChar (c : Char) : Bool := '0' ≤ c && c ≤ '9'

/-- Numeric value of a digit string. -/
def digitsToNat (cs : List Char) : ℕ :=
  cs.foldl (fun a c => a * 10 + (c.toNat - 48)) 0

/-- Parse an unsigned decimal integer literal. -/
def parseIntCore (cs : List Char) : Option ℤ :=
  if cs.length > 0 && cs.all isDigitChar then Option.some ((digitsToNat cs : ℕ) : ℤ)
  else Option.none

/-- Parse an optionally signed decimal integer literal, as accepted by
Python `int(...)` on the plain numeric strings the code handles (the
callers strip first, as the source does). -/
def parseInt? (s : String) : Option ℤ :=
  match s.data with
  | '-' :: rest => (parseIntCore rest).map (fun n => -n)
  | '+' :: rest => parseIntCore rest
  | cs => parseIntCore cs

/-- Parse an unsigned decimal literal with an optional fractional part. -/
def parseFloatCore (cs : List Char) : Option ℚ :=
  let w := cs.takeWhile (fun c => c != '.')
  match cs.drop w.length with
  | [] =>
      if w.length > 0 && w.all isDigitChar then Option.some ((digitsToNat w : ℕ) : ℚ)
      else Option.none
  | '.' :: f =>
      if (w.length > 0 || f.length > 0) && w.all isDigitChar && f.all isDigitChar then
        Option.some ((digitsToNat w : ℕ) + ((digitsToNat f : ℕ) : ℚ) / ((10 ^ f.length : ℕ) : ℚ))
      else Option.none
  | _ => Option.none

/-- Parse an optionally signed decimal literal, as accepted by Python
`float(...)` on the plain numeric strings the code handles (stripping
leading/trailing whitespace as `float` does). -/
def parseFloat? (s : String) : Option ℚ :=
  match (pyStrip s).data with
  | '-' :: rest => (parseFloatCore rest).map (fun q => -q)
  | '+' :: rest => parseFloatCore rest
  | cs => parseFloatCore cs

/-- Python `float(v)`: numbers and numeric strings convert, booleans convert
to 0/1, everything else raises (`TypeError`/`ValueError`). -/
def pyFloat : PyVal → Except PyErr ℚ
  | .bool b => .ok (if b then 1 else 0)
  | .int n => .ok (n : ℚ)
  | .float q => .ok q
  | .str s =>
      match parseFloat? s with
      | Option.some q => .ok q
      | Option.none => .error .valueError
  | _ => .error .typeError

/-- Embeds `ResultWatcher._safe_float`: `float(value)` with any conversion
error replaced by the default. -/
def safeFloat (v : PyVal) (default : ℚ) : ℚ :=
  match pyFloat v with
  | .ok q => q
  | .error _ => default

/-- Floor of a rational, computed directly on the normalized fraction (kept
kernel-reducible on purpose). -/
def ratFloor (q : ℚ) : ℤ := Int.fdiv q.num (q.den : ℤ)

/-- Absolute value of a rational, computed by sign test. -/
def ratAbs (q : ℚ) : ℚ := if q < 0 then -q else q

/-- Python `round(q)` (banker's rounding: ties go to the even integer). -/
def pyRound (q : ℚ) : ℤ :=
  let f := ratFloor q
  let frac := q - (f : ℚ)
  if frac < 1/2 then f
  else if frac > 1/2 then f + 1
  else if f % 2 = 0 then f else f + 1

/-- Python `round(q, 2)` on the rational model of floats. -/
def roundTo2 (q : ℚ) : ℚ := (pyRound (q * 100) : ℚ) / 100

/-- Python `str(v)` restricted to the value shapes that reach `str` in the
embedded code (scalars; containers are rendered with brackets, which never
match any outcome label). -/
def pyStr : PyVal → String
  | .none => "None"
  | .bool b => if b then "True" else "False"
  | .int n => toString n
  | .float q => if q.den = 1 then toString q.num ++ ".0" else toString q.num ++ "/" ++ toString (q.den : ℤ)
  | .str s => s
  | .list _ => "[…]"
  | .dict _ => "\x7b…\x7d"

/-! ## The pending registry data model (`ResultWatcher`) -/

/-- One value of `ResultWatcher.pending`: the bucket dictionary built in
`register_open_trade` (result_watcher.py lines 59-67). -/
structure Bucket where
  openPayload : PyVal
  open_ts : ℤ
  expire_ts : ℚ
  resolved : Bool
  option_id : Option ℤ
  order_ref : PyVal
  deriving Repr

/-- The pending registry: an insertion-ordered map from trade id to bucket,
as a Python dict keyed by arbitrary values. -/
abbrev Registry := List (PyVal × Bucket)

/-- Dictionary lookup `pending.get(tid)` on the registry. -/
def regLookup (st : Registry) (tid : PyVal) : Option Bucket :=
  (st.find? (fun p => PyVal.beq p.1 tid)).map Prod.snd

/-- Dictionary assignment `pending[tid] = b`: replaces an existing key in
place, otherwise appends (Python dicts keep insertion order). -/
def regInsert (st : Registry) (tid : PyVal) (b : Bucket) : Registry :=
  if st.any (fun p => PyVal.beq p.1 tid) then
    st.map (fun p => if PyVal.beq p.1 tid then (p.1, b) else p)
  else st ++ [(tid, b)]

/-- Dictionary deletion `del pending[tid]` / `pending.pop(tid, None)`. -/
def regErase (st : Registry) (tid : PyVal) : Registry :=
  st.filter (fun p => !(PyVal.beq p.1 tid))

/-- Lazy broker-reference write-back `live["option_id"] = option_id`
performed under the lock in `_execute_fallback_pass` (lines 136-140). -/
def regUpdateOid (st : Registry) (tid : PyVal) (oid : ℤ) : Registry :=
  st.map (fun p => if PyVal.beq p.1 tid then (p.1, { p.2 with option_id := some oid }) else p)

/-- Inner conversion of `ResultWatcher._normalize_option_id`:
`int(str(raw).strip())`, `None` on failure.  `str` of a float always carries
a decimal point or exponent, so it never parses as an int; `str` of
booleans, lists and dicts likewise never parses. -/
def intOfScalar : PyVal → Option ℤ
  | .int n => some n
  | .str s => parseInt? (pyStrip s)
  | _ => Option.none

/-- Embeds `ResultWatcher._normalize_option_id` (lines 406-415): unwrap a
non-empty list/tuple to its head, then `int(str(raw).strip())`, with
failures collapsed to `None`. -/
def normalizeOptionId : PyVal → Option ℤ
  | .none => Option.none
  | .list [] => Option.none
  | .list (x :: _) => intOfScalar x
  | v => intOfScalar v

/-- Embeds `ResultWatcher._compute_expire_ts` (lines 428-433); `now` stands
for `time.time()` at the moment of the call. -/
def computeExpireTs (openPayload : PyVal) (openTime now : ℚ) : ℚ :=
  let base := if openTime > 0 then openTime else now
  let d0 := safeFloat (match openPayload with
    | .dict kvs => dictGetD kvs "duration" .none
    | _ => .none) 1
  let d := if d0 ≤ 0 then 1 else d0
  base + d * 60

/-- The broker-reference extraction chain of `register_open_trade`
(lines 46-50): `open_payload.get("broker_event", {}).get("option_id") or
open_payload.get("option_id") or open_payload.get("order_id")`, normalized.
Raises `AttributeError` when a present `broker_event` is not a dict. -/
def payloadOptionId (kvs : List (String × PyVal)) : Except PyErr (Option ℤ) := do
  let beOid ← pyGet (dictGetD kvs "broker_event" (.dict [])) "option_id" .none
  let raw := pyOr beOid (pyOr (dictGetD kvs "option_id" .none) (dictGetD kvs "order_id" .none))
  return normalizeOptionId raw

/-- Python falsiness of a normalized option id (`not option_id`): `None`
and `0` are falsy. -/
def oidFalsy : Option ℤ → Bool
  | Option.none => true
  | Option.some n => n == 0

/-- Python truthiness of a stored option id (`existing.get("option_id")`). -/
def oidTruthy : Option ℤ → Bool
  | Option.none => false
  | Option.some n => n != 0

/-- The duplicate-registration rejection test of `register_open_trade`
(lines 52-57): an existing entry with a truthy broker reference must not be
overwritten by a registration whose reference is falsy. -/
def regSkipCheck (st : Registry) (tid : PyVal) (oid : Option ℤ) : Bool :=
  match regLookup st tid with
  | Option.some existing => oidTruthy existing.option_id && oidFalsy oid
  | Option.none => false

/-- Embeds `ResultWatcher.register_open_trade` (lines 37-73); `now` stands
for `time.time()`.  Returns the updated registry; raises exactly where the
Python code raises. -/
def registerOpenTrade (now : ℚ) (st : Registry) (payload : PyVal) : Except PyErr Registry :=
  match payload with
  | .dict kvs =>
      let tid := dictGetD kvs "trade_id" .none
      if !(pyTruthy tid) then .ok st
      else
        let openTimeExact := safeFloat (dictGetD kvs "open_time" .none) now
        let open_ts := pyRound openTimeExact
        let expire_ts := computeExpireTs (.dict kvs) openTimeExact now
        match payloadOptionId kvs with
        | .error e => .error e
        | .ok oid =>
            if regSkipCheck st tid oid then .ok st
            else
              let bucket : Bucket :=
                { openPayload := .dict kvs
                  open_ts := open_ts
                  expire_ts := expire_ts
                  resolved := false
                  option_id := oid
                  order_ref := pyOr (dictGetD kvs "order_id_raw" .none) (dictGetD kvs "order_id" .none) }
              .ok (regInsert st tid bucket)
  | _ => .ok st

/-! ## Resolution (`_resolve_and_log`) and the push resolver -/

/-- The terminal close record handed to `logger.log_close`
(`_resolve_and_log`, lines 365-392).  Fields that are copied verbatim from
the open payload / close event are kept as `PyVal`; the derived fields
(`outcome_real`, `profit_real`, times) are kept typed. -/
structure CloseRec where
  trade_id : PyVal
  asset : PyVal
  direction : PyVal
  stake : PyVal
  payout : PyVal
  entry_price : PyVal
  outcome_real : String
  profit_real : ℚ
  close_price : PyVal
  open_time : ℚ
  close_time : ℚ
  duration_sec : ℚ
  deriving Repr

/-- The win synonyms recognized by `_resolve_and_log` (line 342). -/
def winLabels : List String := ["win", "won", "success", "victory"]

/-- The loss synonyms recognized by `_resolve_and_log` (line 347). -/
def lossLabels : List String := ["loss", "loose", "lost", "fail", "failed", "defeat"]

/-- The qualitative label read by `_resolve_and_log` (line 338):
`str(close_event.get("result", "")).strip().lower()`. -/
def rawResultLabel (closeEvent : PyVal) : Except PyErr String := do
  let v ← pyGet closeEvent "result" (.str "")
  return pyLower (pyStrip (pyStr v))

/-- The profit magnitude read by `_resolve_and_log` (line 339):
`float(close_event.get("profit_amount", 0) or 0.0)`. -/
def evProfitAmt (closeEvent : PyVal) : Except PyErr ℚ := do
  let v ← pyGet closeEvent "profit_amount" (.int 0)
  pyFloat (pyOr v (.float 0))

/-- The stake read by `_resolve_and_log` (line 340):
`float(open_payload.get("stake", 0) or 0.0)`. -/
def opStake (openPayload : PyVal) : Except PyErr ℚ := do
  let v ← pyGet openPayload "stake" (.int 0)
  pyFloat (pyOr v (.float 0))

/-- The payout read by `_resolve_and_log` (line 341):
`float(open_payload.get("payout", 0) or 0.0)`. -/
def opPayout (openPayload : PyVal) : Except PyErr ℚ := do
  let v ← pyGet openPayload "payout" (.int 0)
  pyFloat (pyOr v (.float 0))

/-- The outcome/profit derivation of `_resolve_and_log` (lines 338-354):
the qualitative label selects WIN/LOSS (DRAW otherwise); the profit is the
signed rounded magnitude, with `stake × payout` (WIN) or `−stake` (LOSS)
synthesized when the magnitude rounds to zero and the stake is positive. -/
def resolveOutcomeProfit (openPayload closeEvent : PyVal) : Except PyErr (String × ℚ) := do
  let rawResult ← rawResultLabel closeEvent
  let profitAmt ← evProfitAmt closeEvent
  let stake ← opStake openPayload
  let payout ← opPayout openPayload
  if winLabels.contains rawResult then
    let p := roundTo2 (ratAbs profitAmt)
    return ("WIN", if p = 0 ∧ 0 < stake then roundTo2 (stake * payout) else p)
  else if lossLabels.contains rawResult then
    let p := roundTo2 (-(ratAbs profitAmt))
    return ("LOSS", if p = 0 ∧ 0 < stake then roundTo2 (-stake) else p)
  else
    return ("DRAW", 0)

/-- Embeds `ResultWatcher._resolve_and_log` (lines 337-396); `now` stands
for `time.time()`.  Produces the final record handed to
`logger.log_close`; raises exactly where the Python code raises. -/
def resolveAndLog (now : ℚ) (openPayload closeEvent : PyVal) : Except PyErr CloseRec := do
  let op ← resolveOutcomeProfit openPayload closeEvent
  let outcome := op.1
  let profitReal := op.2
  let closeTime ← pyFloat (← pyGet closeEvent "close_time" (.float now))
  let openTime ← pyFloat (← pyGet openPayload "open_time" (.float closeTime))
  let tidv ← pyGet openPayload "trade_id" .none
  let assetv ← pyGet openPayload "asset" .none
  let dirv ← pyGet openPayload "direction" .none
  let stakev ← pyGet openPayload "stake" .none
  let payoutv ← pyGet openPayload "payout" .none
  let entryv ← pyGet openPayload "entry_price" .none
  let valuev ← pyGet closeEvent "value" .none
  return { trade_id := tidv
           asset := assetv
           direction := dirv
           stake := stakev
           payout := payoutv
           entry_price := entryv
           outcome_real := outcome
           profit_real := profitReal
           close_price := valuev
           open_time := openTime
           close_time := closeTime
           duration_sec := closeTime - openTime }

/-- The closure-timestamp extraction of `handle_websocket_close`
(lines 76-82): `close_event.get("close_time") or
close_event.get("actual_expire")`, discarded when falsy, then
`round(float(...))` with conversion errors discarded. -/
def wsCloseTs (closeEvent : PyVal) : Except PyErr (Option ℤ) := do
  let ct := pyOr (← pyGet closeEvent "close_time" .none) (← pyGet closeEvent "actual_expire" .none)
  if !(pyTruthy ct) then return Option.none
  else
    match pyFloat ct with
    | .ok q => return Option.some (pyRound q)
    | .error _ => return Option.none

/-- Embeds `ResultWatcher.handle_websocket_close` (lines 75-90); `now`
stands for `time.time()` inside `_resolve_and_log`.  Returns the updated
registry and the close records handed to the sink. -/
def handleWebsocketClose (now : ℚ) (st : Registry) (closeEvent : PyVal) :
    Except PyErr (Registry × List CloseRec) := do
  match ← wsCloseTs closeEvent with
  | Option.none => return (st, [])
  | Option.some cts =>
      match st.find? (fun p => (p.2.open_ts - cts).natAbs ≤ 2) with
      | Option.none => return (st, [])
      | Option.some (tid, b) => do
          let r ← resolveAndLog now b.openPayload closeEvent
          return (regErase st tid, [r])

/-! ## The fallback poller (`_execute_fallback_pass` and helpers) -/

/-- Embeds `ResultWatcher._normalize_outcome_label` (lines 315-328). -/
def normalizeOutcomeLabel (label : PyVal) : Option String :=
  match label with
  | .str s =>
      let n := pyLower (pyStrip s)
      if n = "" then Option.none
      else if ["win", "won", "success", "victory", "gana"].contains n then some "win"
      else if ["loss", "loose", "lost", "fail", "failed", "defeat", "losses", "perdida"].contains n then
        some "loss"
      else if ["draw", "tie", "equal", "refund", "refunded", "igual"].contains n then some "draw"
      else Option.none
  | _ => Option.none

/-- Embeds `ResultWatcher._coerce_profit_amount` (lines 330-335). -/
def coerceProfitAmount (v : PyVal) : ℚ :=
  match pyFloat v with
  | .ok q => ratAbs q
  | .error _ => 0

/-- Embeds `ResultWatcher._fetch_closed_options` (lines 181-193).
`apiResp` is the outcome of `self.api.get_optioninfo_v2(50)`: either an
exception (swallowed, yielding `None`) or a returned payload. -/
def fetchClosedOptions (apiResp : Except PyErr PyVal) : Except PyErr (Option (List PyVal)) :=
  match apiResp with
  | .error _ => .ok Option.none
  | .ok payload =>
      match payload with
      | .dict kvs => do
          let msg := pyOr (dictGetD kvs "msg" .none) payload
          let closed := pyOr (← pyGet msg "closed_options" .none) (← pyGet msg "closed" .none)
          match closed with
          | .list xs => return Option.some xs
          | _ => return Option.none
      | _ => .ok Option.none

/-- Embeds `ResultWatcher._extract_result_from_closed` (lines 195-220).
A result of `none` models the `(None, 0.0, None)` no-match return; a triple
carries `(outcome, profit_amt, entry)` where `outcome` may still be the
Python value `None`. -/
def extractResultFromClosed (entries : List PyVal) (target : String) :
    Except PyErr (Option (PyVal × ℚ × PyVal)) :=
  match entries with
  | [] => .ok Option.none
  | e :: rest => do
      let cand0 ← pyGet e "option_id" .none
      let cand : Option PyVal ←
        match cand0 with
        | .none => do
            let rawId ← pyGet e "id" .none
            match rawId with
            | .list (x :: _) => pure (Option.some x)
            | _ => pure Option.none
        | c => pure (Option.some c)
      match cand with
      | Option.none => extractResultFromClosed rest target
      | Option.some c =>
          if pyStr c ≠ target then extractResultFromClosed rest target
          else do
            let rawOutcome := pyOr (← pyGet e "result" .none) (← pyGet e "win" .none)
            let outcome :=
              match normalizeOutcomeLabel rawOutcome with
              | Option.some s => PyVal.str s
              | Option.none => rawOutcome
            let p0 := coerceProfitAmount (← pyGet e "profit_amount" .none)
            let wv ← pyGet e "win_amount" (.int 0)
            let av ← pyGet e "amount" (.int 0)
            let profitAmt :=
              if p0 = 0 then
                match pyFloat (pyOr wv (.float 0)), pyFloat (pyOr av (.float 0)) with
                | .ok w, .ok a => ratAbs (w - a)
                | _, _ => 0
              else p0
            return Option.some (outcome, profitAmt, e)

/-- The lazy broker-reference derivation of `_execute_fallback_pass`
(lines 128-135): re-derive the option id from the snapshot bucket when the
stored one is `None`. -/
def entryOptionId (b : Bucket) : Except PyErr (Option ℤ) :=
  match b.option_id with
  | Option.some n => .ok (Option.some n)
  | Option.none => do
      let bev ← pyGet b.openPayload "broker_event" (.dict [])
      let beOid ← pyGet bev "option_id" .none
      let a ← pyGet b.openPayload "option_id" .none
      let c ← pyGet b.openPayload "order_id" .none
      return normalizeOptionId (pyOr beOid (pyOr a (pyOr c b.order_ref)))

/-- The expiry-gating test of `_execute_fallback_pass` (lines 122-127):
`expire_ts and now < expire_ts - 0.5`. -/
def skipNotDueCheck (now : ℚ) (b : Bucket) : Bool :=
  b.expire_ts ≠ 0 && now < b.expire_ts - 1/2

/-- The close-event construction and hand-off of `_execute_fallback_pass`
(lines 154-174) for one matched closed-options entry, ending in the
`_resolve_and_log` call. -/
def buildAndResolve (now : ℚ) (b : Bucket) (oid : ℤ) (outcome : PyVal) (profitAmt : ℚ)
    (entry : PyVal) : Except PyErr CloseRec := do
  let ae ← pyGet entry "actual_expire" .none
  let ex ← pyGet entry "expiration_time" .none
  let ct ← pyGet entry "close_time" .none
  let closeTime ← pyFloat (pyOr ae (pyOr ex (pyOr ct (.float now))))
  let d2 ← pyGet b.openPayload "entry_price" (.int 0)
  let d1 ← pyGet b.openPayload "close_price" d2
  let valuev ← pyGet entry "value" d1
  let evOid ← pyGet entry "option_id" .none
  let closeEvent := PyVal.dict
    [("status", .str "CLOSE"), ("result", outcome), ("profit_amount", .float profitAmt),
     ("close_time", .float closeTime), ("value", valuev),
     ("option_id", pyOr evOid (.int oid)), ("raw_event", entry)]
  resolveAndLog now b.openPayload closeEvent

/-- What happened to each snapshot entry during one fallback pass, in
processing order. -/
inductive PassAct where
  | skippedNotDue (tid : PyVal)
  | skippedNoOid (tid : PyVal)
  | fetchFailed
  | waited (tid : PyVal)
  | resolvedTrade (tid : PyVal)
  | raised (tid : PyVal) (e : PyErr)
  deriving Repr

/-- Result of one fallback pass: the live registry, the close records handed
to the sink, the per-entry actions, and the exception (if one escaped the
pass into `_fallback_loop`). -/
structure PassOut where
  st : Registry
  logs : List CloseRec
  acts : List PassAct
  err : Option PyErr
  deriving Repr

/-- The per-pass closed-options cache of `_execute_fallback_pass`
(lines 144-147): fetch at most once per pass, reusing the cached list. -/
def cacheOrFetch (apiResp : Except PyErr PyVal) :
    Option (List PyVal) → Except PyErr (Option (List PyVal))
  | Option.some xs => .ok (Option.some xs)
  | Option.none => fetchClosedOptions apiResp

/-- The entry-processing loop of `_execute_fallback_pass` (lines 120-179)
over the snapshot, threading the per-pass closed-options cache.  An
exception while processing an entry stops the loop (there is no per-entry
handler in the source); a failed fetch ends the pass (`return`). -/
def processEntries (now : ℚ) (apiResp : Except PyErr PyVal) :
    List (PyVal × Bucket) → Option (List PyVal) → PassOut → PassOut
  | [], _, out => out
  | (tid, b) :: rest, cache, out =>
      if skipNotDueCheck now b then
        processEntries now apiResp rest cache
          { out with acts := out.acts ++ [.skippedNotDue tid] }
      else
        match entryOptionId b with
        | .error e => { out with acts := out.acts ++ [.raised tid e], err := some e }
        | .ok Option.none =>
            processEntries now apiResp rest cache
              { out with acts := out.acts ++ [.skippedNoOid tid] }
        | .ok (Option.some oid) =>
            let st1 := if b.option_id.isNone then regUpdateOid out.st tid oid else out.st
            let out1 := { out with st := st1 }
            match cacheOrFetch apiResp cache with
            | .error e => { out1 with acts := out1.acts ++ [.raised tid e], err := some e }
            | .ok Option.none => { out1 with acts := out1.acts ++ [.fetchFailed] }
            | .ok (Option.some closed) =>
                match extractResultFromClosed closed (toString oid) with
                | .error e => { out1 with acts := out1.acts ++ [.raised tid e], err := some e }
                | .ok Option.none =>
                    processEntries now apiResp rest (Option.some closed)
                      { out1 with acts := out1.acts ++ [.waited tid] }
                | .ok (Option.some (outcome, profitAmt, entry)) =>
                    if pyIsNone outcome then
                      processEntries now apiResp rest (Option.some closed)
                        { out1 with acts := out1.acts ++ [.waited tid] }
                    else
                        match buildAndResolve now b oid outcome profitAmt entry with
                        | .error e => { out1 with acts := out1.acts ++ [.raised tid e], err := some e }
                        | .ok r =>
                            processEntries now apiResp rest (Option.some closed)
                              { st := regErase out1.st tid
                                logs := out1.logs ++ [r]
                                acts := out1.acts ++ [.resolvedTrade tid]
                                err := out1.err }

/-- Embeds `ResultWatcher._execute_fallback_pass` (lines 107-179).
`apiPresent` models the `if not self.api` guard; `now` stands for
`time.time()` and `apiResp` for the brokerage's closed-options response. -/
def execFallbackPass (now : ℚ) (apiPresent : Bool) (apiResp : Except PyErr PyVal)
    (st : Registry) : PassOut :=
  if !apiPresent then { st := st, logs := [], acts := [], err := Option.none }
  else
    let snapshot := st.filter (fun p => !p.2.resolved)
    if snapshot.isEmpty then { st := st, logs := [], acts := [], err := Option.none }
    else processEntries now apiResp snapshot Option.none
      { st := st, logs := [], acts := [], err := Option.none }

/-- One iteration of `ResultWatcher._fallback_loop` (lines 92-99): the pass
runs and any exception escaping it is caught and logged, never propagated. -/
def fallbackLoopIter (now : ℚ) (apiPresent : Bool) (apiResp : Except PyErr PyVal)
    (st : Registry) : Registry × List CloseRec :=
  let o := execFallbackPass now apiPresent apiResp st
  (o.st, o.logs)

/-! ## Interleaving semantics for the push/poll race

The fallback pass holds the lock only for the snapshot (line 110), the lazy
option-id write-back (lines 137-140) and the final recheck-and-remove
(lines 175-179); the brokerage fetch and, crucially, the
`_resolve_and_log` hand-off (line 174) happen *outside* the lock.
`handle_websocket_close` holds the lock for its whole match-resolve-remove
body (lines 84-90).  We decompose the fallback pass at its lock boundaries
into atomic steps and let push events interleave between them. -/

/-- Thread-local control state of the fallback pass between atomic steps. -/
inductive FbPhase where
  | idle
  | ready (snap : List (PyVal × Bucket))
  | midEntry (tid : PyVal) (r : CloseRec) (rest : List (PyVal × Bucket))
  deriving Repr

/-- Shared system state: the live registry, the sequence of close records
handed to the persistence sink, and the fallback thread's phase. -/
structure CSys where
  pending : Registry
  sunk : List CloseRec
  fb : FbPhase
  deriving Repr

/-- Atomic steps of the interleaved system: take the snapshot, run the
lock-free work region of the head snapshot entry (fetch, extract, build,
`_resolve_and_log`), run the under-lock recheck-and-remove, or deliver one
push close event (whose handler runs entirely under the lock). -/
inductive CStep where
  | snap
  | work
  | recheck
  | push (ev : PyVal)

/-- The lock-free work region of `_execute_fallback_pass` for one snapshot
entry, classifying it exactly as `processEntries` does.  Returns the
records to sink and the next phase.  The closed-options list is (re)read
from `apiResp` here, and the under-lock lazy option-id write-back is not
replayed: both are observationally irrelevant for schedules over a single
snapshot entry whose broker reference is already stored, which is what the
race demonstration below uses. -/
def fbWork (now : ℚ) (apiResp : Except PyErr PyVal) (tid : PyVal) (b : Bucket)
    (rest : List (PyVal × Bucket)) : List CloseRec × FbPhase :=
  if skipNotDueCheck now b then ([], .ready rest)
  else
    match entryOptionId b with
    | .error _ => ([], .idle)
    | .ok Option.none => ([], .ready rest)
    | .ok (Option.some oid) =>
        match fetchClosedOptions apiResp with
        | .error _ => ([], .idle)
        | .ok Option.none => ([], .idle)
        | .ok (Option.some closed) =>
            match extractResultFromClosed closed (toString oid) with
            | .error _ => ([], .idle)
            | .ok Option.none => ([], .ready rest)
            | .ok (Option.some (outcome, profitAmt, entry)) =>
                if pyIsNone outcome then ([], .ready rest)
                else
                  match buildAndResolve now b oid outcome profitAmt entry with
                  | .error _ => ([], .idle)
                  | .ok r => ([r], .midEntry tid r rest)

/-- One atomic step of the interleaved system. -/
def cstep (now : ℚ) (apiResp : Except PyErr PyVal) (s : CSys) : CStep → CSys
  | .snap =>
      match s.fb with
      | .idle => { s with fb := .ready (s.pending.filter (fun p => !p.2.resolved)) }
      | _ => s
  | .work =>
      match s.fb with
      | .ready ((tid, b) :: rest) =>
          let (recs, ph) := fbWork now apiResp tid b rest
          { s with sunk := s.sunk ++ recs, fb := ph }
      | _ => s
  | .recheck =>
      match s.fb with
      | .midEntry tid _ rest =>
          { s with pending := regErase s.pending tid, fb := .ready rest }
      | _ => s
  | .push ev =>
      match handleWebsocketClose now s.pending ev with
      | .ok (st', recs) => { s with pending := st', sunk := s.sunk ++ recs }
      | .error _ => s

/-- Run the interleaved system along a schedule of atomic steps. -/
def crun (now : ℚ) (apiResp : Except PyErr PyVal) (s : CSys) (sched : List CStep) : CSys :=
  sched.foldl (cstep now apiResp) s

/-! ## The order submitter (`ExecutionEngine.open_order`, src/execution.py) -/

/-- One attempt outcome of `self.api.buy(...)`: the call either raises (the
`except` arm sets `(False, None)`) or returns an `(opened, order_id)`
pair. -/
inductive BuyAttempt where
  | raises
  | ret (opened : Bool) (orderId : PyVal)
  deriving Repr

/-- The retry loop of `open_order` (execution.py lines 62-73):
up to `MAX_RETRIES = 3` attempts, breaking on `opened and order_id is not
None`, keeping the last attempt's values otherwise.  Attempts beyond the
supplied list are modelled as raising. -/
def buyLoop : ℕ → List BuyAttempt → (Bool × PyVal) → (Bool × PyVal)
  | 0, _, acc => acc
  | Nat.succ k, attempts, _ =>
      let (a, rest) :=
        match attempts with
        | [] => (BuyAttempt.raises, [])
        | x :: xs => (x, xs)
      let res :=
        match a with
        | .raises => (false, PyVal.none)
        | .ret o i => (o, i)
      if res.1 && !(pyIsNone res.2) then res else buyLoop k rest res

/-- Normalization of the brokerage order id in `open_order`
(execution.py lines 81-85): `int(str(order_id).strip())`, keeping the raw
id on failure. -/
def execNormalizeId (raw : PyVal) : PyVal :=
  match intOfScalar raw with
  | Option.some n => .int n
  | Option.none => raw

/-- The canonical order record built by `open_order`
(execution.py lines 89-118), restricted to its typed core; the opaque
context/logic/metadata blobs are carried as `PyVal`. -/
structure ExecOrder where
  order_id : PyVal
  trade_id : String
  asset : String
  stake : ℚ
  payout : ℚ
  direction : String
  regime : String
  entry_price : ℚ
  opened_at : ℚ
  duration : ℚ
  context : PyVal
  deriving Repr

/-- Observable interactions of `open_order` with the persistence sink and
the result watcher. -/
inductive SinkEvent where
  | openLogged (tradeId : String)
  | loggerError
  | registered
  | registerFailed
  deriving Repr, DecidableEq

/-- Embeds `TradeLogger.log_trade_open` (logger.py lines 138-171): the whole
body is inside `try/except`, so a failing sink write is swallowed and
reported as a logger error; the call never raises. -/
def logTradeOpen (sinkWriteFails : Bool) (o : ExecOrder) : List SinkEvent :=
  if sinkWriteFails then [.loggerError] else [.openLogged o.trade_id]

/-- Embeds `ExecutionEngine.open_order` (execution.py lines 40-134).
`attempts` models the brokerage responses, `sinkWriteFails` a failing
persistence write inside `log_trade_open`, and `registerResult` the outcome
of `result_watcher.register_open_trade` (which `open_order` wraps in
`try/except`; `winsound.Beep` is likewise wrapped and has no further
effect).  Raises exactly where the Python code raises (`ValueError` on a
bad direction; the `api is None` `RuntimeError` is modelled by the
`apiPresent` guard). -/
def openOrder (apiPresent : Bool) (attempts : List BuyAttempt) (sinkWriteFails : Bool)
    (registerResult : Except PyErr Unit) (asset direction : String) (stake payout : ℚ)
    (regime : String) (entry_price : ℚ) (context : PyVal) (now duration : ℚ) :
    Except PyErr (Option ExecOrder × List SinkEvent) :=
  if !apiPresent then .error .runtimeError
  else
    let dir := pyLower direction
    if !(["call", "put"].contains dir) then .error .valueError
    else
      let (opened, orderId) := buyLoop 3 attempts (false, .none)
      if !opened || pyIsNone orderId then .ok (Option.none, [])
      else
        let optionId := execNormalizeId orderId
        let tradeId := asset ++ "-" ++ pyStr optionId
        let order : ExecOrder :=
          { order_id := optionId
            trade_id := tradeId
            asset := asset
            stake := stake
            payout := payout
            direction := dir
            regime := regime
            entry_price := entry_price
            opened_at := now
            duration := duration
            context := context }
        let evs1 := logTradeOpen sinkWriteFails order
        let evs2 :=
          match registerResult with
          | .ok _ => [SinkEvent.registered]
          | .error _ => [SinkEvent.registerFailed]
        .ok (Option.some order, evs1 ++ evs2)

/-! ## The lifecycle controller (`TradingLionsBot` tick loop, src/bot.py)

The tick loop body (`run`, lines 262-288) calls `_handle_signal`,
`_enter_trade` and `_resolve_trade` in that order; the reinforcement path
`_try_reinforce`/`_execute_reinforcement` is invoked from `_resolve_trade`
while the order is still inside its duration window.  Market-data sync and
the non-blocking poller wake-up touch neither the active-order slot nor
`open_order` and are elided.  The asset scan of `_handle_signal`
(payout/volatility filters and the decision engine) is abstracted as the
environment's best candidate; `open_order` itself is abstracted to its
effect on the bot: a call record tagged with `has_active_order()` at call
time, and on success a new active order. -/

/-- The fields of the active order dict that the tick loop reads
(`_try_reinforce` lines 428-437, `_resolve_trade` lines 491-493). -/
structure OrderB where
  asset : String
  direction : String
  stake : ℚ
  payout : ℚ
  regime : String
  entry_price : ℚ
  opened_at : ℚ
  duration : ℚ
  deriving Repr, DecidableEq

/-- The `PendingEntry` dataclass of bot.py (lines 24-29), restricted to the
fields the embedded paths read. -/
structure PEntryB where
  asset : String
  direction : String
  regime : String
  payout : ℚ
  nextOpen : ℚ
  deriving Repr, DecidableEq

/-- The tick-loop state: `execution._active_order`, the `reinforced` flag,
`pending_entry` and `_resolution_wait_start`. -/
structure BotSt where
  active : Option OrderB
  reinforced : Bool
  pendingEntry : Option PEntryB
  waitStart : Option ℚ
  deriving Repr, DecidableEq

/-- Embeds `ExecutionEngine.has_active_order`. -/
def hasActiveOrder (s : BotSt) : Bool := s.active.isSome

/-- A record of one `execution.open_order(...)` call made by the tick loop,
tagged with `has_active_order()` at the moment of the call. -/
structure OpenCall where
  asset : String
  direction : String
  regime : String
  whileActive : Bool
  deriving Repr, DecidableEq

/-- Per-tick environment: the asset scan's best candidate, the last M1
candle close for the active asset, whether `api.buy` succeeds, and the
remaining market inputs the tick reads. -/
structure TickEnv where
  scan : Option PEntryB
  lastPrice : Option ℚ
  buyOk : Bool
  openPrice : ℚ
  stake : ℚ
  reinfPayout : ℚ
  tradeDuration : ℚ
  deriving Repr

/-- The `execution.open_order` call as seen from the tick loop: always
emits a call record; on brokerage success the engine stores the new order
in `_active_order` (execution.py line 120). -/
def openOrderCall (s : BotSt) (env : TickEnv) (asset direction regime : String)
    (entryPrice payout t : ℚ) : Option OrderB × OpenCall :=
  let call : OpenCall :=
    { asset := asset, direction := direction, regime := regime
      whileActive := hasActiveOrder s }
  if env.buyOk then
    (Option.some
      { asset := asset, direction := direction, stake := env.stake, payout := payout
        regime := regime, entry_price := entryPrice, opened_at := t
        duration := env.tradeDuration }, call)
  else (Option.none, call)

/-- Embeds `TradingLionsBot._handle_signal` (lines 298-346): refuses to scan
while an order is active or an entry is already pending; otherwise adopts
the scan's best candidate.  Makes no `open_order` call. -/
def handleSignal (s : BotSt) (env : TickEnv) : BotSt :=
  if hasActiveOrder s then s
  else if s.pendingEntry.isSome then s
  else
    match env.scan with
    | Option.none => s
    | Option.some best => { s with pendingEntry := some best }

/-- Embeds `TradingLionsBot._enter_trade` (lines 354-418): waits for the
scheduled candle open, then submits via `open_order`; on rejection releases
the pending entry, on success installs the active order. -/
def enterTrade (s : BotSt) (env : TickEnv) (t : ℚ) : BotSt × List OpenCall :=
  match s.pendingEntry with
  | Option.none => (s, [])
  | Option.some pe =>
      if t + 1/20 < pe.nextOpen then (s, [])
      else
        let (res, call) := openOrderCall s env pe.asset pe.direction pe.regime env.openPrice pe.payout t
        match res with
        | Option.none => ({ s with pendingEntry := Option.none }, [call])
        | Option.some o => ({ s with active := some o, pendingEntry := Option.none }, [call])

/-- Embeds `TradingLionsBot._execute_reinforcement` (lines 447-469): calls
`open_order` with regime `"reinforcement"`; on success sets the
`reinforced` flag (and the engine has replaced `_active_order`). -/
def execReinforce (s : BotSt) (env : TickEnv) (asset direction : String) (lastPrice t : ℚ) :
    BotSt × List OpenCall :=
  let (res, call) := openOrderCall s env asset direction "reinforcement" lastPrice env.reinfPayout t
  match res with
  | Option.none => (s, [call])
  | Option.some o => ({ s with active := some o, reinforced := true }, [call])

/-- Embeds `TradingLionsBot._try_reinforce` (lines 423-445): only with an
active order, only once per trade (`reinforced` flag), and only on a price
improvement in the trade's direction. -/
def tryReinforce (s : BotSt) (env : TickEnv) (t : ℚ) : BotSt × List OpenCall :=
  if !(hasActiveOrder s) then (s, [])
  else if s.reinforced then (s, [])
  else
    match s.active with
    | Option.none => (s, [])
    | Option.some o =>
        match env.lastPrice with
        | Option.none => (s, [])
        | Option.some lp =>
            if o.direction = "call" ∧ lp < o.entry_price * (998/1000) then
              execReinforce s env o.asset o.direction lp t
            else if o.direction = "put" ∧ lp > o.entry_price * (1002/1000) then
              execReinforce s env o.asset o.direction lp t
            else (s, [])

/-- Embeds `TradingLionsBot._resolve_trade` (lines 478-505): while the
active order is inside its duration window it tries the reinforcement path;
past the window it sweeps the active slot (duration-based timeout). -/
def resolveTrade (s : BotSt) (env : TickEnv) (t : ℚ) : BotSt × List OpenCall :=
  if !(hasActiveOrder s) then ({ s with waitStart := Option.none }, [])
  else
    match s.active with
    | Option.none => ({ s with waitStart := Option.none }, [])
    | Option.some o =>
        let durationCfg := o.duration * 60
        let elapsed := t - o.opened_at
        if elapsed < durationCfg then
          let s1 := if s.waitStart.isNone then { s with waitStart := some t } else s
          tryReinforce s1 env t
        else
          ({ s with active := Option.none, reinforced := false, waitStart := Option.none }, [])

/-- One body of the orchestrating tick loop (`run`, lines 262-288):
`_handle_signal; _enter_trade; _resolve_trade`, collecting every
`open_order` call made. -/
def tick (s : BotSt) (env : TickEnv) (t : ℚ) : BotSt × List OpenCall :=
  let s1 := handleSignal s env
  let (s2, c2) := enterTrade s1 env t
  let (s3, c3) := resolveTrade s2 env t
  (s3, c2 ++ c3)

/-- The structural invariant the tick loop maintains: while an order is
active, no scheduled entry is pending (the scan is suspended). -/
def botInv (s : BotSt) : Prop := hasActiveOrder s = true → s.pendingEntry = Option.none

/-! ## Concrete scenarios used by the claim theorems and witnesses -/

/-- A representative open payload as built by `ExecutionEngine.open_order`:
trade `EURUSD-7`, opened at t=1000 for 1 minute, stake 10, payout 0.8,
broker reference 7. -/
def racePayload : PyVal := .dict
  [("trade_id", .str "EURUSD-7"), ("open_time", .int 1000), ("duration", .int 1),
   ("stake", .int 10), ("payout", .float (4/5)),
   ("broker_event", .dict [("option_id", .int 7)])]

/-- The registry holding exactly the `EURUSD-7` trade, registered at
t=1000. -/
def raceRegistry : Registry := (registerOpenTrade 1000 [] racePayload).toOption.getD []

/-- A push close notification matching `EURUSD-7` by the ±2 s window
(close 1001 against open 1000). -/
def racePushEvent : PyVal := .dict
  [("close_time", .int 1001), ("result", .str "win"), ("profit_amount", .float 5)]

/-- The brokerage's closed-options entry reporting trade 7 as a win. -/
def raceClosedEntry : PyVal := .dict
  [("option_id", .int 7), ("result", .str "win"), ("profit_amount", .float 5),
   ("actual_expire", .int 1060), ("value", .int 0)]

/-- The brokerage response delivering `raceClosedEntry`. -/
def raceApiResp : Except PyErr PyVal :=
  .ok (.dict [("msg", .dict [("closed_options", .list [raceClosedEntry])])])

/-- Initial interleaved-system state for the push/poll race. -/
def raceInit : CSys := { pending := raceRegistry, sunk := [], fb := .idle }

/-- The racing schedule at t=1060 (one second after expiry): the fallback
pass snapshots the pending trade, the push notification then resolves it
under the lock, and the pass still hands off its own record before its
under-lock recheck. -/
def raceFinal : CSys :=
  crun 1060 raceApiResp raceInit [.snap, .push racePushEvent, .work, .recheck]

/-- A bucket with open time 1 (second of the epoch), for the push-matching
counterexample. -/
def cexCloseBucket : Bucket :=
  { openPayload := .dict [("trade_id", .str "t")], open_ts := 1, expire_ts := 60,
    resolved := false, option_id := some 3, order_ref := .none }

/-- Registry holding only `cexCloseBucket` under key `"t"`. -/
def cexCloseRegistry : Registry := [(PyVal.str "t", cexCloseBucket)]

/-- A close event whose `close_time` is the number `0`: a numeric closure
timestamp that is Python-falsy. -/
def cexZeroEvent : PyVal := .dict [("close_time", .int 0)]

/-- The open payload of the expiry-gating example: registered with
`opened_at = 0` and `duration = 1` minute (registration wall-clock 0). -/
def gatePayload : PyVal := .dict
  [("trade_id", .str "A-1"), ("open_time", .int 0), ("duration", .int 1),
   ("broker_event", .dict [("option_id", .int 1)])]

/-- The registry produced by registering `gatePayload` at wall-clock 0. -/
def gateRegistry : Registry := (registerOpenTrade 0 [] gatePayload).toOption.getD []

/-- The bucket stored for `A-1` in `gateRegistry`: expiry 60. -/
def gateBucket : Bucket :=
  { openPayload := gatePayload, open_ts := 0, expire_ts := 60,
    resolved := false, option_id := some 1, order_ref := .none }

/-- Open payload of the trade whose closed-options entry raises during the
poll pass (its `actual_expire` is a non-numeric string). -/
def isoPayloadA : PyVal := .dict
  [("trade_id", .str "A-7"), ("open_time", .int 1000), ("duration", .int 1),
   ("stake", .int 10), ("payout", .float (4/5)),
   ("broker_event", .dict [("option_id", .int 7)])]

/-- Open payload of the second, equally due trade in the same pass. -/
def isoPayloadB : PyVal := .dict
  [("trade_id", .str "B-8"), ("open_time", .int 1000), ("duration", .int 1),
   ("stake", .int 10), ("payout", .float (4/5)),
   ("broker_event", .dict [("option_id", .int 8)])]

/-- Closed-options entry for trade 7 whose `actual_expire` cannot be
`float(...)`-converted: processing it raises `ValueError`. -/
def isoClosedBad : PyVal := .dict
  [("option_id", .int 7), ("result", .str "win"), ("profit_amount", .float 5),
   ("actual_expire", .str "bad")]

/-- A perfectly resolvable closed-options entry for trade 8. -/
def isoClosedGood : PyVal := .dict
  [("option_id", .int 8), ("result", .str "win"), ("profit_amount", .float 5),
   ("actual_expire", .int 1060)]

/-- Brokerage response holding both closed entries. -/
def isoApiResp : Except PyErr PyVal :=
  .ok (.dict [("msg", .dict [("closed_options", .list [isoClosedBad, isoClosedGood])])])

/-- Registry holding trades `A-7` and `B-8`, both registered at t=1000. -/
def isoRegistry : Registry :=
  (do
    let s1 ← registerOpenTrade 1000 [] isoPayloadA
    registerOpenTrade 1000 s1 isoPayloadB).toOption.getD []

/-- The poll pass over `isoRegistry` at t=1060. -/
def isoOut : PassOut := execFallbackPass 1060 true isoApiResp isoRegistry

/-- The initial bot state: nothing active, nothing pending. -/
def botInit : BotSt :=
  { active := Option.none, reinforced := false, pendingEntry := Option.none,
    waitStart := Option.none }

/-- The scan candidate adopted in the first tick: a call signal on EURUSD
scheduled for the candle open at t=60. -/
def botScanEntry : PEntryB :=
  { asset := "EURUSD", direction := "call", regime := "trend", payout := 4/5, nextOpen := 60 }

/-- First-tick environment: the scan yields `botScanEntry`; nothing else is
exercised. -/
def botEnvScan : TickEnv :=
  { scan := some botScanEntry, lastPrice := Option.none, buyOk := false, openPrice := 0,
    stake := 1, reinfPayout := 4/5, tradeDuration := 1 }

/-- Second-tick environment: the brokerage accepts orders, the open price
is 100 and the last M1 close is 99 (below the 0.2 % reinforcement
threshold). -/
def botEnvTrade : TickEnv :=
  { scan := Option.none, lastPrice := some 99, buyOk := true, openPrice := 100,
    stake := 1, reinfPayout := 4/5, tradeDuration := 1 }

/-- State after the first tick (t=10): entry pending, no active order. -/
def botMid : BotSt := (tick botInit botEnvScan 10).1

/-- The `open_order` calls made during the second tick (t=60): the entry
call, then the reinforcement call fired while that order is active. -/
def botTradeCalls : List OpenCall := (tick botMid botEnvTrade 60).2

/-- Open payload for the C3 witness: stake 10, payout 0.8. -/
def wonPayload : PyVal := .dict [("stake", .int 10), ("payout", .float (4/5))]

/-- Close event carrying only the qualitative label `"won"`. -/
def wonEvent : PyVal := .dict [("result", .str "won")]

/-- A re-registration payload for trade `EURUSD-7` carrying no broker
reference at all. -/
def bareReregPayload : PyVal := .dict
  [("trade_id", .str "EURUSD-7"), ("open_time", .int 1200)]

/-- A single successful brokerage buy attempt returning order id 99. -/
def buyOkAttempts : List BuyAttempt := [BuyAttempt.ret true (.int 99)]

/-- Invalid input to `register_open_trade` (lines 38-42): not a dict, or a
dict whose `trade_id` is absent or falsy. -/
def invalidRegPayload (p : PyVal) : Bool :=
  match p with
  | .dict kvs => !(pyTruthy (dictGetD kvs "trade_id" .none))
  | _ => true

/-! # Theorems -/

section ClaimTheorems
set_option allowUnsafeReducibility true
attribute [local semireducible] Rat.add Rat.sub Rat.mul Rat.inv

/-- C1: at-most-once resolution fails on the code.  In the interleaving
where a push close notification lands between the fallback pass's snapshot
and its `_resolve_and_log` hand-off (made possible because line 174 runs
outside the lock, before the under-lock recheck of lines 175-179), one
registered trade produces TWO terminal close records for the persistence
sink; the registry itself ends empty. -/
theorem race_double_close_record :
    raceFinal.sunk.map (fun r => pyStr r.trade_id) = ["EURUSD-7", "EURUSD-7"] ∧
    raceFinal.sunk.map CloseRec.outcome_real = ["WIN", "WIN"] ∧
    raceFinal.pending = [] :=
  ⟨by decide, by decide, rfl⟩

/-- C6 counterexample: for `duration = 0.5` minutes and `opened_at = 100`
the code computes expiry `130` (= `opened_at + 0.5×60`), not
`opened_at + max(0.5, 1)×60 = 160` as the claim's formula demands. -/
theorem computeExpire_not_max_formula :
    computeExpireTs (.dict [("duration", .float (1/2))]) 100 0 = 130 ∧
    (100 : ℚ) + max (1/2 : ℚ) 1 * 60 = 160 ∧ (130 : ℚ) ≠ (160 : ℚ) :=
  ⟨by decide, by norm_num, by norm_num⟩

/-- C6 amended: for every registered order, `register` stores
`expire_ts = base + d′×60` where `base` is `opened_at` when positive (else
the registration wall-clock time) and `d′` is the parsed duration, replaced
by 1 only when missing, unparseable or non-positive; `d′` is always
positive, so no order becomes permanently "not yet due".  (For
`0 < duration < 1` the stored expiry is `opened_at + duration×60`, not the
claimed `opened_at + max(duration,1)×60`.) -/
theorem register_expire_formula (now : ℚ) (st : Registry) (kvs : List (String × PyVal))
    (oid : Option ℤ)
    (htruthy : pyTruthy (dictGetD kvs "trade_id" .none) = true)
    (hoid : payloadOptionId kvs = .ok oid)
    (hskip : regSkipCheck st (dictGetD kvs "trade_id" .none) oid = false) :
    ∃ b : Bucket,
      registerOpenTrade now st (.dict kvs) = .ok (regInsert st (dictGetD kvs "trade_id" .none) b) ∧
      b.expire_ts =
        (let ot := safeFloat (dictGetD kvs "open_time" .none) now
         let d0 := safeFloat (dictGetD kvs "duration" .none) 1
         (if ot > 0 then ot else now) + (if d0 ≤ 0 then 1 else d0) * 60) ∧
      0 < (let d0 := safeFloat (dictGetD kvs "duration" .none) 1
           if d0 ≤ 0 then 1 else d0) := by
  refine ⟨{ openPayload := .dict kvs
            open_ts := pyRound (safeFloat (dictGetD kvs "open_time" .none) now)
            expire_ts := computeExpireTs (.dict kvs) (safeFloat (dictGetD kvs "open_time" .none) now) now
            resolved := false
            option_id := oid
            order_ref := pyOr (dictGetD kvs "order_id_raw" .none) (dictGetD kvs "order_id" .none) },
          ?_, ?_, ?_⟩
  · simp [registerOpenTrade, htruthy, hoid, hskip]
  · simp only [computeExpireTs]
  · by_cases h : safeFloat (dictGetD kvs "duration" .none) 1 ≤ 0
    · simp only [h, if_pos]
      norm_num
    · simp only [h, if_neg, if_false]
      push_neg at h
      exact h

/-- C6 amended, witness: registering `duration = 0.5` at `opened_at = 100`
stores expiry 130 with positive effective duration. -/
theorem register_expire_formula_witness :
    ∃ b : Bucket,
      registerOpenTrade 0 [] (.dict [("trade_id", .str "t"), ("open_time", .int 100), ("duration", .float (1/2))]) =
        .ok (regInsert [] (.str "t") b) ∧ b.expire_ts = 130 := by
  obtain ⟨b, h1, h2, _⟩ := register_expire_formula 0 []
    [("trade_id", .str "t"), ("open_time", .int 100), ("duration", .float (1/2))]
    Option.none (by decide) rfl (by decide)
  refine ⟨b, ?_, ?_⟩
  · simpa using h1
  · rw [h2]; decide

/-- C10: `register_open_trade` is a total no-op on invalid input: for every
argument that is not a dict, or is a dict whose `trade_id` key is absent or
falsy, it returns without raising and leaves the registry unchanged. -/
theorem register_invalid_noop (now : ℚ) (st : Registry) (p : PyVal)
    (h : invalidRegPayload p = true) :
    registerOpenTrade now st p = .ok st := by
  cases p <;> simp_all [invalidRegPayload, registerOpenTrade]

/-- C10 witness: a non-dict argument and a dict with a falsy `trade_id`
both leave a non-empty registry untouched and return cleanly. -/
theorem register_invalid_noop_witness :
    registerOpenTrade 0 raceRegistry (.int 5) = .ok raceRegistry ∧
    registerOpenTrade 0 raceRegistry (.dict [("trade_id", .str "")]) = .ok raceRegistry :=
  ⟨register_invalid_noop 0 raceRegistry (.int 5) (by decide),
   register_invalid_noop 0 raceRegistry (.dict [("trade_id", .str "")]) (by decide)⟩

/-- C7: when the registry holds an entry for a trade id with a truthy
broker reference and a re-registration for the same id carries a broker
reference that normalizes to `None`, `register_open_trade` rejects the
re-registration and leaves the whole registry (hence the stored reference)
unchanged. -/
theorem register_keeps_broker_reference (now : ℚ) (st : Registry)
    (kvs : List (String × PyVal)) (ex : Bucket)
    (htruthy : pyTruthy (dictGetD kvs "trade_id" .none) = true)
    (hex : regLookup st (dictGetD kvs "trade_id" .none) = some ex)
    (hexoid : oidTruthy ex.option_id = true)
    (hnew : payloadOptionId kvs = .ok Option.none) :
    registerOpenTrade now st (.dict kvs) = .ok st := by
  simp [registerOpenTrade, htruthy, hnew, regSkipCheck, hex, hexoid, oidFalsy]

/-- C7 witness: re-registering `EURUSD-7` (stored with broker reference 7)
with a payload carrying no reference leaves the registry unchanged. -/
theorem register_keeps_broker_reference_witness :
    registerOpenTrade 1200 raceRegistry bareReregPayload = .ok raceRegistry :=
  register_keeps_broker_reference 1200 raceRegistry
    [("trade_id", .str "EURUSD-7"), ("open_time", .int 1200)]
    { openPayload := racePayload, open_ts := 1000, expire_ts := 1060,
      resolved := false, option_id := some 7, order_ref := .none }
    (by decide) rfl (by decide) rfl

/-- C9: when the brokerage buy succeeds, `open_order` returns the built
order and neither raises nor returns `None`, regardless of a failing
persistence write inside `log_trade_open` and regardless of
`register_open_trade` raising (both sink interactions are fire-and-forget:
the former catches internally, the latter is wrapped in `try/except`). -/
theorem open_order_sink_failures_harmless (attempts : List BuyAttempt)
    (asset direction : String) (stake payout : ℚ) (regime : String)
    (entry_price : ℚ) (context : PyVal) (now duration : ℚ)
    (hdir : ["call", "put"].contains (pyLower direction) = true)
    (hbuy : (buyLoop 3 attempts (false, .none)).1 = true)
    (hbid : pyIsNone (buyLoop 3 attempts (false, .none)).2 = false) :
    ∃ o : ExecOrder, ∀ (sinkWriteFails : Bool) (registerResult : Except PyErr Unit),
      ∃ evs, openOrder true attempts sinkWriteFails registerResult asset direction
        stake payout regime entry_price context now duration = .ok (Option.some o, evs) := by
  rcases hp : buyLoop 3 attempts (false, PyVal.none) with ⟨op, oid⟩
  rw [hp] at hbuy hbid
  simp only at hbuy hbid
  subst hbuy
  refine ⟨{ order_id := execNormalizeId oid
            trade_id := asset ++ "-" ++ pyStr (execNormalizeId oid)
            asset := asset, stake := stake, payout := payout
            direction := pyLower direction, regime := regime
            entry_price := entry_price, opened_at := now, duration := duration
            context := context },
          fun sf rr =>
          ⟨logTradeOpen sf
              { order_id := execNormalizeId oid
                trade_id := asset ++ "-" ++ pyStr (execNormalizeId oid)
                asset := asset, stake := stake, payout := payout
                direction := pyLower direction, regime := regime
                entry_price := entry_price, opened_at := now, duration := duration
                context := context } ++
            (match rr with
             | .ok _ => [SinkEvent.registered]
             | .error _ => [SinkEvent.registerFailed]), ?_⟩⟩
  unfold openOrder
  simp only [hdir, hp, hbid, Bool.not_true, Bool.not_false, Bool.false_or,
    Bool.false_eq_true, if_false]

/-- C9 witness: a successful buy with a failing sink write and a raising
watcher registration still returns the built order. -/
theorem open_order_sink_failures_harmless_witness :
    ∃ o evs, openOrder true buyOkAttempts true (.error .other) "EURUSD" "call" 1 (4/5)
      "trend" 100 .none 60 1 = .ok (Option.some o, evs) := by
  obtain ⟨o, h⟩ := open_order_sink_failures_harmless buyOkAttempts "EURUSD" "call" 1 (4/5)
    "trend" 100 .none 60 1 (by decide) (by decide) (by decide)
  obtain ⟨evs, he⟩ := h true (.error .other)
  exact ⟨o, evs, he⟩

/-- Reduction of an `Except` bind on a success value. -/
theorem exceptBind_ok {α β : Type} (a : α) (f : α → Except PyErr β) :
    (Except.ok a >>= f) = f a := rfl

/-- Reduction of an `Except` bind on an error value. -/
theorem exceptBind_err {α β : Type} (e : PyErr) (f : α → Except PyErr β) :
    ((Except.error e : Except PyErr α) >>= f) = .error e := rfl

/-- Reduction of `pure` in the `Except` monad. -/
theorem exceptPure {α : Type} (a : α) : (pure a : Except PyErr α) = .ok a := rfl

/-- C4 counterexample: the event `{"close_time": 0}` carries a closure
timestamp that coerces to the number 0 and lies within 2 s of the pending
entry's open time 1, yet `handle_websocket_close` discards it (Python
truthiness) and leaves the registry unchanged without resolving anything. -/
theorem ws_close_zero_timestamp_ignored :
    pyFloat (.int 0) = .ok 0 ∧
    (cexCloseBucket.open_ts - pyRound 0).natAbs ≤ 2 ∧
    handleWebsocketClose 0 cexCloseRegistry cexZeroEvent = .ok (cexCloseRegistry, []) :=
  ⟨rfl, by decide, rfl⟩

/-- C4 amended: `handle_websocket_close` resolves and removes the first
pending entry within 2 s of the event's closure timestamp if and only if
the extracted timestamp is truthy and numerically coercible (so a falsy
timestamp such as 0 is discarded even though it is a number) and such an
entry exists and its resolution succeeds; whenever no truthy coercible
timestamp or no matching entry exists the registry is left completely
unchanged and nothing is logged. -/
theorem ws_close_match_conditions (now : ℚ) (st : Registry) (ev : PyVal) :
    (wsCloseTs ev = .ok Option.none → handleWebsocketClose now st ev = .ok (st, [])) ∧
    (∀ cts : ℤ, wsCloseTs ev = .ok (Option.some cts) →
      (st.find? (fun p => (p.2.open_ts - cts).natAbs ≤ 2) = Option.none →
        handleWebsocketClose now st ev = .ok (st, [])) ∧
      (∀ tid b r, st.find? (fun p => (p.2.open_ts - cts).natAbs ≤ 2) = Option.some (tid, b) →
        resolveAndLog now b.openPayload ev = .ok r →
        handleWebsocketClose now st ev = .ok (regErase st tid, [r]))) := by
  refine ⟨fun h0 => ?_, fun cts hc => ⟨fun hnone => ?_, fun tid b r hfind hres => ?_⟩⟩
  · simp [handleWebsocketClose, h0, exceptBind_ok, exceptPure]
  · simp [handleWebsocketClose, hc, hnone, exceptBind_ok, exceptPure]
  · simp [handleWebsocketClose, hc, hfind, hres, exceptBind_ok, exceptPure]

/-- C4 witness: with open time 1000 pending, a push event closing at 1001
(Δ=1) resolves and removes the entry, while one closing at 1003 (Δ=3)
leaves the registry unchanged. -/
theorem ws_close_match_conditions_witness :
    handleWebsocketClose 1001 raceRegistry racePushEvent =
      .ok (regErase raceRegistry (.str "EURUSD-7"),
        [{ trade_id := .str "EURUSD-7", asset := .none, direction := .none,
           stake := .int 10, payout := .float (4/5), entry_price := .none,
           outcome_real := "WIN", profit_real := 5, close_price := .none,
           open_time := 1000, close_time := 1001, duration_sec := 1 }]) ∧
    handleWebsocketClose 1003 raceRegistry (.dict [("close_time", .int 1003)]) =
      .ok (raceRegistry, []) := by
  constructor
  · exact ((ws_close_match_conditions 1001 raceRegistry racePushEvent).2 1001 rfl).2
      (.str "EURUSD-7")
      { openPayload := racePayload, open_ts := 1000, expire_ts := 1060,
        resolved := false, option_id := some 7, order_ref := .none }
      _ rfl rfl
  · exact ((ws_close_match_conditions 1003 raceRegistry
      (.dict [("close_time", .int 1003)])).2 1003 rfl).1 rfl

/-- If `_resolve_and_log` produces a record, its outcome/profit pair is
exactly the one computed by the label-based derivation of lines 338-354. -/
theorem resolveAndLog_ok_outcome (now : ℚ) (op ev : PyVal) (r : CloseRec)
    (hres : resolveAndLog now op ev = .ok r) :
    resolveOutcomeProfit op ev = .ok (r.outcome_real, r.profit_real) := by
  unfold resolveAndLog at hres
  rcases h1 : resolveOutcomeProfit op ev with e | op2
  · rw [h1, exceptBind_err] at hres
    cases hres
  · rw [h1, exceptBind_ok] at hres
    rcases h2 : pyGet ev "close_time" (.float now) with e | v2
    · rw [h2, exceptBind_err] at hres
      cases hres
    rw [h2, exceptBind_ok] at hres
    rcases h3 : pyFloat v2 with e | ct
    · rw [h3, exceptBind_err] at hres
      cases hres
    rw [h3, exceptBind_ok] at hres
    rcases h4 : pyGet op "open_time" (.float ct) with e | v4
    · rw [h4, exceptBind_err] at hres
      cases hres
    rw [h4, exceptBind_ok] at hres
    rcases h5 : pyFloat v4 with e | ot
    · rw [h5, exceptBind_err] at hres
      cases hres
    rw [h5, exceptBind_ok] at hres
    rcases h6 : pyGet op "trade_id" .none with e | v6
    · rw [h6, exceptBind_err] at hres
      cases hres
    rw [h6, exceptBind_ok] at hres
    rcases h7 : pyGet op "asset" .none with e | v7
    · rw [h7, exceptBind_err] at hres
      cases hres
    rw [h7, exceptBind_ok] at hres
    rcases h8 : pyGet op "direction" .none with e | v8
    · rw [h8, exceptBind_err] at hres
      cases hres
    rw [h8, exceptBind_ok] at hres
    rcases h9 : pyGet op "stake" .none with e | v9
    · rw [h9, exceptBind_err] at hres
      cases hres
    rw [h9, exceptBind_ok] at hres
    rcases h10 : pyGet op "payout" .none with e | v10
    · rw [h10, exceptBind_err] at hres
      cases hres
    rw [h10, exceptBind_ok] at hres
    rcases h11 : pyGet op "entry_price" .none with e | v11
    · rw [h11, exceptBind_err] at hres
      cases hres
    rw [h11, exceptBind_ok] at hres
    rcases h12 : pyGet ev "value" .none with e | v12
    · rw [h12, exceptBind_err] at hres
      cases hres
    rw [h12, exceptBind_ok, exceptPure] at hres
    cases hres
    rfl

/-- C3 counterexample: a close event carrying the numeric profit +5.0 and
no qualitative label is resolved by `_resolve_and_log` as DRAW with profit
0.0 — not WIN with profit 5.0 as the claim's sign rule demands.  The
numeric sign of the profit never determines the outcome there. -/
theorem resolve_numeric_profit_gives_draw :
    (resolveAndLog 0 (.dict []) (.dict [("profit_amount", .float 5)])).map
      (fun r => (r.outcome_real, r.profit_real)) = .ok ("DRAW", 0) ∧
    evProfitAmt (.dict [("profit_amount", .float 5)]) = .ok 5 ∧
    ("DRAW", (0 : ℚ)) ≠ ("WIN", (5 : ℚ)) :=
  ⟨rfl, rfl, by decide⟩

/-- C3 amended: `_resolve_and_log` derives (outcome, profit) from the
qualitative label alone: a win synonym yields WIN, a loss synonym yields
LOSS, and anything else — including a purely numeric profit of either
sign — yields DRAW with profit 0; for WIN/LOSS the profit is the rounded
signed magnitude, replaced by `stake × payout` (WIN) or `−stake` (LOSS)
when the magnitude rounds to zero and the stake is positive. -/
theorem resolve_outcome_label_only (now : ℚ) (op ev : PyVal) (r : CloseRec)
    (lab : String) (pa stake payout : ℚ)
    (hres : resolveAndLog now op ev = .ok r)
    (hlab : rawResultLabel ev = .ok lab)
    (hpa : evProfitAmt ev = .ok pa)
    (hstake : opStake op = .ok stake)
    (hpayout : opPayout op = .ok payout) :
    (winLabels.contains lab = true →
      r.outcome_real = "WIN" ∧
      r.profit_real = (if roundTo2 (ratAbs pa) = 0 ∧ 0 < stake
                       then roundTo2 (stake * payout) else roundTo2 (ratAbs pa))) ∧
    (winLabels.contains lab = false → lossLabels.contains lab = true →
      r.outcome_real = "LOSS" ∧
      r.profit_real = (if roundTo2 (-(ratAbs pa)) = 0 ∧ 0 < stake
                       then roundTo2 (-stake) else roundTo2 (-(ratAbs pa)))) ∧
    (winLabels.contains lab = false → lossLabels.contains lab = false →
      r.outcome_real = "DRAW" ∧ r.profit_real = 0) := by
  have hop := resolveAndLog_ok_outcome now op ev r hres
  unfold resolveOutcomeProfit at hop
  rw [hlab, exceptBind_ok, hpa, exceptBind_ok, hstake, exceptBind_ok, hpayout,
    exceptBind_ok] at hop
  refine ⟨fun hw => ?_, fun hw hl => ?_, fun hw hl => ?_⟩
  · rw [hw] at hop
    simp only [if_true, exceptPure] at hop
    injection hop with h
    exact ⟨(congrArg Prod.fst h).symm, (congrArg Prod.snd h).symm⟩
  · rw [hw, hl] at hop
    simp only [Bool.false_eq_true, if_false, if_true, exceptPure] at hop
    injection hop with h
    exact ⟨(congrArg Prod.fst h).symm, (congrArg Prod.snd h).symm⟩
  · rw [hw, hl] at hop
    simp only [Bool.false_eq_true, if_false, exceptPure] at hop
    injection hop with h
    exact ⟨(congrArg Prod.fst h).symm, (congrArg Prod.snd h).symm⟩

/-- C3 witness: the label `"won"` with no numeric profit and stake 10,
payout 0.8 resolves to WIN with synthesized profit 8.0. -/
theorem resolve_outcome_label_only_witness :
    (resolveAndLog 0 wonPayload wonEvent).map (fun r => r.outcome_real) = .ok "WIN" ∧
    (resolveAndLog 0 wonPayload wonEvent).map (fun r => r.profit_real) = .ok 8 := by
  obtain ⟨h1, h2⟩ := (resolve_outcome_label_only 0 wonPayload wonEvent
    { trade_id := .none, asset := .none, direction := .none,
      stake := .int 10, payout := .float (4/5), entry_price := .none,
      outcome_real := "WIN", profit_real := 8, close_price := .none,
      open_time := 0, close_time := 0, duration_sec := 0 }
    "won" 0 10 (4/5) rfl rfl rfl rfl rfl).1 (by decide)
  constructor
  · show (Except.ok
      ({ trade_id := .none, asset := .none, direction := .none,
         stake := .int 10, payout := .float (4/5), entry_price := .none,
         outcome_real := "WIN", profit_real := 8, close_price := .none,
         open_time := 0, close_time := 0, duration_sec := 0 } : CloseRec).outcome_real :
      Except PyErr String) = .ok "WIN"
    rw [h1]
  · show (Except.ok
      ({ trade_id := .none, asset := .none, direction := .none,
         stake := .int 10, payout := .float (4/5), entry_price := .none,
         outcome_real := "WIN", profit_real := 8, close_price := .none,
         open_time := 0, close_time := 0, duration_sec := 0 } : CloseRec).profit_real :
      Except PyErr ℚ) = .ok 8
    rw [h2]
    exact congrArg Except.ok (by decide)

/-- C8 counterexample: over a snapshot of two due, unresolved entries, the
exception raised while processing `A-7` (its closed-options record has a
non-numeric `actual_expire`) ends the pass: the only recorded action is the
raise, `B-8` is never examined in that pass, nothing is logged, and both
entries remain pending. -/
theorem poll_pass_raise_aborts_rest :
    isoOut.acts = [PassAct.raised (.str "A-7") PyErr.valueError] ∧
    isoOut.err = some PyErr.valueError ∧
    isoOut.logs = [] ∧
    isoOut.st.map Prod.fst = [.str "A-7", .str "B-8"] ∧
    (isoRegistry.filter (fun p => !p.2.resolved)).map Prod.fst = [.str "A-7", .str "B-8"] ∧
    isoRegistry.map (fun p => skipNotDueCheck 1060 p.2) = [false, false] :=
  ⟨rfl, rfl, rfl, rfl, rfl, by decide⟩

/-- The actions recorded by the entry loop extend the incoming action list. -/
theorem processEntries_acts_extend (now : ℚ) (apiResp : Except PyErr PyVal) :
    ∀ (entries : List (PyVal × Bucket)) (cache : Option (List PyVal)) (out : PassOut),
      ∃ l, (processEntries now apiResp entries cache out).acts = out.acts ++ l
  | [], _, out => ⟨[], by simp [processEntries]⟩
  | (tid, b) :: rest, cache, out => by
      unfold processEntries
      by_cases hskip : skipNotDueCheck now b = true
      · rw [if_pos hskip]
        obtain ⟨l, hl⟩ := processEntries_acts_extend now apiResp rest cache
          { out with acts := out.acts ++ [PassAct.skippedNotDue tid] }
        exact ⟨PassAct.skippedNotDue tid :: l, by rw [hl]; simp⟩
      · rw [if_neg hskip]
        rcases hoid : entryOptionId b with e | oo
        · simp only [hoid]
          exact ⟨[PassAct.raised tid e], rfl⟩
        rcases oo with _ | oid
        · simp only [hoid]
          obtain ⟨l, hl⟩ := processEntries_acts_extend now apiResp rest cache
            { out with acts := out.acts ++ [PassAct.skippedNoOid tid] }
          exact ⟨PassAct.skippedNoOid tid :: l, by rw [hl]; simp⟩
        · simp only [hoid]
          rcases hfc : cacheOrFetch apiResp cache with e | oc
          · simp only [hfc]
            exact ⟨[PassAct.raised tid e], rfl⟩
          rcases oc with _ | closed
          · simp only [hfc]
            exact ⟨[PassAct.fetchFailed], rfl⟩
          · simp only [hfc]
            rcases hex : extractResultFromClosed closed (toString oid) with e | ores
            · simp only [hex]
              exact ⟨[PassAct.raised tid e], rfl⟩
            rcases ores with _ | ⟨outcome, profitAmt, entry⟩
            · simp only [hex]
              obtain ⟨l, hl⟩ := processEntries_acts_extend now apiResp rest
                (Option.some closed)
                { st := if b.option_id.isNone then regUpdateOid out.st tid oid else out.st,
                  logs := out.logs, acts := out.acts ++ [PassAct.waited tid], err := out.err }
              exact ⟨PassAct.waited tid :: l, by rw [hl]; simp⟩
            · simp only [hex]
              by_cases hno : pyIsNone outcome = true
              · rw [if_pos hno]
                obtain ⟨l, hl⟩ := processEntries_acts_extend now apiResp rest
                  (Option.some closed)
                  { st := if b.option_id.isNone then regUpdateOid out.st tid oid else out.st,
                    logs := out.logs, acts := out.acts ++ [PassAct.waited tid], err := out.err }
                exact ⟨PassAct.waited tid :: l, by rw [hl]; simp⟩
              · rw [if_neg hno]
                rcases hbr : buildAndResolve now b oid outcome profitAmt entry with e | r
                · simp only [hbr]
                  exact ⟨[PassAct.raised tid e], rfl⟩
                · simp only [hbr]
                  obtain ⟨l, hl⟩ := processEntries_acts_extend now apiResp rest
                    (Option.some closed)
                    { st := regErase (if b.option_id.isNone then regUpdateOid out.st tid oid else out.st) tid,
                      logs := out.logs ++ [r], acts := out.acts ++ [PassAct.resolvedTrade tid],
                      err := out.err }
                  exact ⟨PassAct.resolvedTrade tid :: l, by rw [hl]; simp⟩

/-- If the entry loop starts with no error and ends with one, the raise is
the last action it recorded: nothing after the raising entry was examined. -/
theorem processEntries_err_raised (now : ℚ) (apiResp : Except PyErr PyVal) :
    ∀ (entries : List (PyVal × Bucket)) (cache : Option (List PyVal)) (out : PassOut),
      out.err = Option.none →
      ∀ e, (processEntries now apiResp entries cache out).err = some e →
      ∃ tid, (processEntries now apiResp entries cache out).acts.getLast? =
        some (PassAct.raised tid e)
  | [], _, out => by
      intro hout e herr
      simp only [processEntries] at herr
      rw [hout] at herr
      cases herr
  | (tid, b) :: rest, cache, out => by
      intro hout e herr
      unfold processEntries at herr ⊢
      by_cases hskip : skipNotDueCheck now b = true
      · rw [if_pos hskip] at herr ⊢
        exact processEntries_err_raised now apiResp rest cache
          { out with acts := out.acts ++ [PassAct.skippedNotDue tid] } hout e herr
      · rw [if_neg hskip] at herr ⊢
        rcases hoid : entryOptionId b with e' | oo
        · simp only [hoid] at herr ⊢
          cases herr
          exact ⟨tid, by rw [List.getLast?_concat]⟩
        rcases oo with _ | oid
        · simp only [hoid] at herr ⊢
          exact processEntries_err_raised now apiResp rest cache
            { out with acts := out.acts ++ [PassAct.skippedNoOid tid] } hout e herr
        · simp only [hoid] at herr ⊢
          rcases hfc : cacheOrFetch apiResp cache with e' | oc
          · simp only [hfc] at herr ⊢
            cases herr
            exact ⟨tid, by rw [List.getLast?_concat]⟩
          rcases oc with _ | closed
          · simp only [hfc] at herr ⊢
            rw [hout] at herr
            cases herr
          · simp only [hfc] at herr ⊢
            rcases hex : extractResultFromClosed closed (toString oid) with e' | ores
            · simp only [hex] at herr ⊢
              cases herr
              exact ⟨tid, by rw [List.getLast?_concat]⟩
            rcases ores with _ | ⟨outcome, profitAmt, entry⟩
            · simp only [hex] at herr ⊢
              exact processEntries_err_raised now apiResp rest (Option.some closed)
                { st := if b.option_id.isNone then regUpdateOid out.st tid oid else out.st,
                  logs := out.logs, acts := out.acts ++ [PassAct.waited tid], err := out.err }
                hout e herr
            · simp only [hex] at herr ⊢
              by_cases hno : pyIsNone outcome = true
              · rw [if_pos hno] at herr ⊢
                exact processEntries_err_raised now apiResp rest (Option.some closed)
                  { st := if b.option_id.isNone then regUpdateOid out.st tid oid else out.st,
                    logs := out.logs, acts := out.acts ++ [PassAct.waited tid], err := out.err }
                  hout e herr
              · rw [if_neg hno] at herr ⊢
                rcases hbr : buildAndResolve now b oid outcome profitAmt entry with e' | r
                · simp only [hbr] at herr ⊢
                  cases herr
                  exact ⟨tid, by rw [List.getLast?_concat]⟩
                · simp only [hbr] at herr ⊢
                  exact processEntries_err_raised now apiResp rest (Option.some closed)
                    { st := regErase (if b.option_id.isNone then regUpdateOid out.st tid oid else out.st) tid,
                      logs := out.logs ++ [_], acts := out.acts ++ [PassAct.resolvedTrade tid],
                      err := out.err } hout e herr

/-- Matching a string-valued key on the right of `PyVal.beq`. -/
theorem beq_str_right (v : PyVal) (s : String) (h : PyVal.beq v (.str s) = true) :
    v = .str s := by
  cases v <;> simp_all [PyVal.beq]

/-- Matching a string-valued key on the left of `PyVal.beq`. -/
theorem beq_str_left (s : String) (v : PyVal) (h : PyVal.beq (.str s) v = true) :
    v = .str s := by
  cases v <;> simp_all [PyVal.beq]

/-- A registry lookup succeeds exactly when some key matches. -/
theorem regLookup_isSome_any (st : Registry) (tid : PyVal) :
    (regLookup st tid).isSome = (st.map Prod.fst).any (fun k => PyVal.beq k tid) := by
  induction st with
  | nil => rfl
  | cons p rest ih =>
      unfold regLookup at ih ⊢
      rw [List.find?_cons]
      by_cases h : PyVal.beq p.1 tid = true
      · simp [h]
      · have h' : PyVal.beq p.1 tid = false := Bool.eq_false_iff.mpr h
        simp [h', ih]

/-- The lazy option-id write-back does not change the registry's keys. -/
theorem regUpdateOid_keys (st : Registry) (t : PyVal) (n : ℤ) :
    (regUpdateOid st t n).map Prod.fst = st.map Prod.fst := by
  induction st with
  | nil => rfl
  | cons p rest ih =>
      unfold regUpdateOid at ih ⊢
      by_cases h : PyVal.beq p.1 t = true <;> simp [h, ih]

/-- Erasing a key keeps exactly the keys that do not match it. -/
theorem regErase_keys (st : Registry) (t : PyVal) :
    (regErase st t).map Prod.fst = (st.map Prod.fst).filter (fun k => !(PyVal.beq k t)) := by
  induction st with
  | nil => rfl
  | cons p rest ih =>
      unfold regErase at ih ⊢
      by_cases h : PyVal.beq p.1 t = true <;> simp [List.filter_cons, h, ih]

/-- A string key that matches somewhere still matches after all entries
with a different key are removed. -/
theorem any_str_filter (keys : List PyVal) (s : String) (t : PyVal) (hne : t ≠ .str s)
    (h : keys.any (fun k => PyVal.beq k (.str s)) = true) :
    (keys.filter (fun k => !(PyVal.beq k t))).any (fun k => PyVal.beq k (.str s)) = true := by
  induction keys with
  | nil => simp at h
  | cons k rest ih =>
      simp only [List.any_cons, Bool.or_eq_true] at h
      rcases h with hk | hrest
      · have hks : k = .str s := beq_str_right k s hk
        subst hks
        have hkeep : PyVal.beq (PyVal.str s) t = false := by
          by_contra hcon
          rw [Bool.not_eq_false] at hcon
          exact hne (beq_str_left s t hcon)
        simp [List.filter_cons, hkeep, hk]
      · by_cases hf : PyVal.beq k t = true
        · simp only [List.filter_cons, hf, Bool.not_true, Bool.false_eq_true, if_false]
          exact ih hrest
        · have hf' : PyVal.beq k t = false := Bool.eq_false_iff.mpr hf
          simp only [List.filter_cons, hf', Bool.not_false, if_true]
          simp only [List.any_cons, Bool.or_eq_true]
          exact Or.inr (ih hrest)

/-- Lookup success is unaffected by the option-id write-back. -/
theorem regLookup_isSome_updateOid (st : Registry) (t : PyVal) (n : ℤ) (tid : PyVal) :
    (regLookup (regUpdateOid st t n) tid).isSome = (regLookup st tid).isSome := by
  rw [regLookup_isSome_any, regLookup_isSome_any, regUpdateOid_keys]

/-- A string key still resolves after erasing a different key. -/
theorem regLookup_str_erase (st : Registry) (s : String) (t : PyVal)
    (hne : t ≠ .str s) (h : (regLookup st (.str s)).isSome = true) :
    (regLookup (regErase st t) (.str s)).isSome = true := by
  rw [regLookup_isSome_any, regErase_keys]
  rw [regLookup_isSome_any] at h
  exact any_str_filter _ s t hne h

/-- Lookup success through the conditional option-id write-back. -/
theorem regLookup_isSome_condUpdate (st : Registry) (c : Bool) (t : PyVal) (n : ℤ)
    (tid : PyVal) (h : (regLookup st tid).isSome = true) :
    (regLookup (if c then regUpdateOid st t n else st) tid).isSome = true := by
  cases c
  · simpa using h
  · simpa [regLookup_isSome_updateOid] using h

/-- Every string-keyed entry that the pass does not resolve is still in the
registry when the pass ends (the failing entry of an aborted pass
included). -/
theorem processEntries_pending_kept (now : ℚ) (apiResp : Except PyErr PyVal) :
    ∀ (entries : List (PyVal × Bucket)) (cache : Option (List PyVal)) (out : PassOut) (s : String),
      (regLookup out.st (.str s)).isSome = true →
      PassAct.resolvedTrade (PyVal.str s) ∉ (processEntries now apiResp entries cache out).acts →
      (regLookup (processEntries now apiResp entries cache out).st (.str s)).isSome = true
  | [], _, out, s => by
      intro hlook _
      simpa [processEntries] using hlook
  | (tid, b) :: rest, cache, out, s => by
      intro hlook hmem
      unfold processEntries at hmem ⊢
      by_cases hskip : skipNotDueCheck now b = true
      · rw [if_pos hskip] at hmem ⊢
        exact processEntries_pending_kept now apiResp rest cache
          { out with acts := out.acts ++ [PassAct.skippedNotDue tid] } s hlook hmem
      · rw [if_neg hskip] at hmem ⊢
        rcases hoid : entryOptionId b with e | oo
        · simp only [hoid] at hmem ⊢
          exact hlook
        rcases oo with _ | oid
        · simp only [hoid] at hmem ⊢
          exact processEntries_pending_kept now apiResp rest cache
            { out with acts := out.acts ++ [PassAct.skippedNoOid tid] } s hlook hmem
        · simp only [hoid] at hmem ⊢
          have hkeep : (regLookup
              (if b.option_id.isNone then regUpdateOid out.st tid oid else out.st)
              (.str s)).isSome = true :=
            regLookup_isSome_condUpdate out.st _ tid oid (.str s) hlook
          rcases hfc : cacheOrFetch apiResp cache with e | oc
          · simp only [hfc] at hmem ⊢
            exact hkeep
          rcases oc with _ | closed
          · simp only [hfc] at hmem ⊢
            exact hkeep
          · simp only [hfc] at hmem ⊢
            rcases hex : extractResultFromClosed closed (toString oid) with e | ores
            · simp only [hex] at hmem ⊢
              exact hkeep
            rcases ores with _ | ⟨outcome, profitAmt, entry⟩
            · simp only [hex] at hmem ⊢
              exact processEntries_pending_kept now apiResp rest (Option.some closed)
                { st := if b.option_id.isNone then regUpdateOid out.st tid oid else out.st,
                  logs := out.logs, acts := out.acts ++ [PassAct.waited tid], err := out.err }
                s hkeep hmem
            · simp only [hex] at hmem ⊢
              by_cases hno : pyIsNone outcome = true
              · rw [if_pos hno] at hmem ⊢
                exact processEntries_pending_kept now apiResp rest (Option.some closed)
                  { st := if b.option_id.isNone then regUpdateOid out.st tid oid else out.st,
                    logs := out.logs, acts := out.acts ++ [PassAct.waited tid], err := out.err }
                  s hkeep hmem
              · rw [if_neg hno] at hmem ⊢
                rcases hbr : buildAndResolve now b oid outcome profitAmt entry with e | r
                · simp only [hbr] at hmem ⊢
                  exact hkeep
                · simp only [hbr] at hmem ⊢
                  obtain ⟨l, hl⟩ := processEntries_acts_extend now apiResp rest
                    (Option.some closed)
                    { st := regErase (if b.option_id.isNone then regUpdateOid out.st tid oid else out.st) tid,
                      logs := out.logs ++ [r], acts := out.acts ++ [PassAct.resolvedTrade tid],
                      err := out.err }
                  have hin : PassAct.resolvedTrade tid ∈ (processEntries now apiResp rest
                      (Option.some closed)
                      { st := regErase (if b.option_id.isNone then regUpdateOid out.st tid oid else out.st) tid,
                        logs := out.logs ++ [r], acts := out.acts ++ [PassAct.resolvedTrade tid],
                        err := out.err }).acts := by
                    rw [hl]
                    simp
                  have hne : tid ≠ PyVal.str s := by
                    intro hEq
                    exact hmem (hEq ▸ hin)
                  exact processEntries_pending_kept now apiResp rest (Option.some closed)
                    { st := regErase (if b.option_id.isNone then regUpdateOid out.st tid oid else out.st) tid,
                      logs := out.logs ++ [r], acts := out.acts ++ [PassAct.resolvedTrade tid],
                      err := out.err }
                    s (regLookup_str_erase _ s tid hne hkeep) hmem

/-- The element just appended sits at the old length, also after further
extension of the action list. -/
theorem actsGet_mid_head (acts0 : List PassAct) (x : PassAct) (l : List PassAct) :
    ((acts0 ++ [x]) ++ l).get? acts0.length = some x := by
  rw [List.append_assoc, List.get?_append_right (Nat.le_refl _)]
  simp

/-- Indexing past a one-element append lands in the extension. -/
theorem actsGet_mid_tail (acts0 : List PassAct) (x : PassAct) (l : List PassAct) (i : ℕ) :
    ((acts0 ++ [x]) ++ l).get? (acts0.length + (i + 1)) = l.get? i := by
  have h1 : (acts0 ++ [x]).length ≤ acts0.length + (i + 1) := by
    simp only [List.length_append, List.length_cons, List.length_nil]
    omega
  have h2 : acts0.length + (i + 1) - (acts0 ++ [x]).length = i := by
    simp only [List.length_append, List.length_cons, List.length_nil]
    omega
  rw [List.get?_append_right h1, h2]

/-- The element appended by a stopping branch sits at the old length. -/
theorem actsGet_stop_head (acts0 : List PassAct) (x : PassAct) :
    (acts0 ++ [x]).get? acts0.length = some x := by
  rw [List.get?_append_right (Nat.le_refl _)]
  simp

/-- A stopping branch records nothing past its own action. -/
theorem actsGet_stop_tail (acts0 : List PassAct) (x : PassAct) (i : ℕ) :
    (acts0 ++ [x]).get? (acts0.length + (i + 1)) = Option.none := by
  apply List.get?_eq_none.mpr
  simp only [List.length_append, List.length_cons, List.length_nil]
  omega

/-- The value stored under a string key is unchanged by an option-id
write-back on a different key. -/
theorem regLookup_update_of_ne (st : Registry) (s : String) (t : PyVal) (n : ℤ)
    (hne : PyVal.beq (.str s) t = false) :
    regLookup (regUpdateOid st t n) (.str s) = regLookup st (.str s) := by
  induction st with
  | nil => rfl
  | cons p rest ih =>
      unfold regUpdateOid regLookup at ih ⊢
      rw [List.map_cons, List.find?_cons, List.find?_cons]
      by_cases hpt : PyVal.beq p.1 t = true
      · have hps : PyVal.beq p.1 (.str s) = false := by
          by_contra hcon
          rw [Bool.not_eq_false] at hcon
          rw [beq_str_right p.1 s hcon] at hpt
          rw [hpt] at hne
          cases hne
        simp only [hpt, if_true, hps, Bool.false_eq_true, if_false]
        exact ih
      · have hpt' : PyVal.beq p.1 t = false := Bool.eq_false_iff.mpr hpt
        simp only [hpt', Bool.false_eq_true, if_false]
        by_cases hps : PyVal.beq p.1 (.str s) = true
        · simp only [hps, if_true]
        · have hps' : PyVal.beq p.1 (.str s) = false := Bool.eq_false_iff.mpr hps
          simp only [hps', Bool.false_eq_true, if_false]
          exact ih

/-- The value stored under a string key is unchanged by erasing a
different key. -/
theorem regLookup_erase_of_ne (st : Registry) (s : String) (t : PyVal)
    (hne : PyVal.beq (.str s) t = false) :
    regLookup (regErase st t) (.str s) = regLookup st (.str s) := by
  induction st with
  | nil => rfl
  | cons p rest ih =>
      unfold regErase regLookup at ih ⊢
      rw [List.filter_cons]
      by_cases hpt : PyVal.beq p.1 t = true
      · have hps : PyVal.beq p.1 (.str s) = false := by
          by_contra hcon
          rw [Bool.not_eq_false] at hcon
          rw [beq_str_right p.1 s hcon] at hpt
          rw [hpt] at hne
          cases hne
        simp only [hpt, Bool.not_true, Bool.false_eq_true, if_false, List.find?_cons,
          hps]
        exact ih
      · have hpt' : PyVal.beq p.1 t = false := Bool.eq_false_iff.mpr hpt
        simp only [hpt', Bool.not_false, if_true, List.find?_cons]
        by_cases hps : PyVal.beq p.1 (.str s) = true
        · simp only [hps]
        · have hps' : PyVal.beq p.1 (.str s) = false := Bool.eq_false_iff.mpr hps
          simp only [hps']
          exact ih

/-- The value stored under a string key survives the conditional option-id
write-back on a different key. -/
theorem regLookup_condUpdate_of_ne (st : Registry) (c : Bool) (s : String) (t : PyVal)
    (n : ℤ) (hne : PyVal.beq (.str s) t = false) :
    regLookup (if c then regUpdateOid st t n else st) (.str s) = regLookup st (.str s) := by
  cases c
  · rfl
  · exact regLookup_update_of_ne st s t n hne

/-- Positional account of the entry loop: the action recorded at offset `i`
(past the actions already in `out`) belongs to the `i`-th snapshot entry
and is the not-yet-due skip exactly when that entry's grace window has not
passed. -/
theorem processEntries_act_at (now : ℚ) (apiResp : Except PyErr PyVal) :
    ∀ (entries : List (PyVal × Bucket)) (cache : Option (List PyVal)) (out : PassOut)
      (i : ℕ) (tid : PyVal) (b : Bucket) (a : PassAct),
      entries.get? i = some (tid, b) →
      (processEntries now apiResp entries cache out).acts.get? (out.acts.length + i) =
        some a →
      (skipNotDueCheck now b = true → a = PassAct.skippedNotDue tid) ∧
      (skipNotDueCheck now b = false → a ≠ PassAct.skippedNotDue tid)
  | [], _, _, i, _, _, _ => by
      intro hget _
      cases i <;> cases hget
  | (tid0, b0) :: rest, cache, out, i, tid, b, a => by
      intro hget hact
      unfold processEntries at hact
      by_cases hskip : skipNotDueCheck now b0 = true
      · rw [if_pos hskip] at hact
        cases i with
        | zero =>
            have hpair : ((tid0, b0) : PyVal × Bucket) = (tid, b) := Option.some.inj hget
            have htid : tid0 = tid := congrArg Prod.fst hpair
            have hb : b0 = b := congrArg Prod.snd hpair
            obtain ⟨l, hl⟩ := processEntries_acts_extend now apiResp rest cache
              { out with acts := out.acts ++ [PassAct.skippedNotDue tid0] }
            have hval : (processEntries now apiResp rest cache
                { out with acts := out.acts ++ [PassAct.skippedNotDue tid0] }).acts.get?
                out.acts.length = some (PassAct.skippedNotDue tid0) := by
              rw [hl]
              exact actsGet_mid_head out.acts (PassAct.skippedNotDue tid0) l
            have ha : PassAct.skippedNotDue tid0 = a :=
              Option.some.inj (hval.symm.trans hact)
            constructor
            · intro _
              rw [← ha, htid]
            · intro hf
              rw [← hb] at hf
              rw [hskip] at hf
              cases hf
        | succ j =>
            have hget2 : rest.get? j = some (tid, b) := hget
            have hact2 : (processEntries now apiResp rest cache
                { out with acts := out.acts ++ [PassAct.skippedNotDue tid0] }).acts.get?
                ((out.acts ++ [PassAct.skippedNotDue tid0]).length + j) = some a := by
              have hidx : (out.acts ++ [PassAct.skippedNotDue tid0]).length + j =
                  out.acts.length + (j + 1) := by
                simp only [List.length_append, List.length_cons, List.length_nil]
                omega
              rw [hidx]
              exact hact
            exact processEntries_act_at now apiResp rest cache
              { out with acts := out.acts ++ [PassAct.skippedNotDue tid0] }
              j tid b a hget2 hact2
      · rw [if_neg hskip] at hact
        have hskip2 : skipNotDueCheck now b0 = false := Bool.eq_false_iff.mpr hskip
        rcases hoid : entryOptionId b0 with e | oo
        · simp only [hoid] at hact
          cases i with
          | zero =>
              have hpair : ((tid0, b0) : PyVal × Bucket) = (tid, b) := Option.some.inj hget
              have hb : b0 = b := congrArg Prod.snd hpair
              have ha : PassAct.raised tid0 e = a := Option.some.inj
                ((actsGet_stop_head out.acts (PassAct.raised tid0 e)).symm.trans hact)
              constructor
              · intro ht
                rw [← hb] at ht
                rw [ht] at hskip2
                cases hskip2
              · intro hf heq
                rw [← ha] at heq
                cases heq
          | succ j =>
              cases (actsGet_stop_tail out.acts (PassAct.raised tid0 e) j).symm.trans hact
        rcases oo with _ | oid
        · simp only [hoid] at hact
          cases i with
          | zero =>
              have hpair : ((tid0, b0) : PyVal × Bucket) = (tid, b) := Option.some.inj hget
              have hb : b0 = b := congrArg Prod.snd hpair
              obtain ⟨l, hl⟩ := processEntries_acts_extend now apiResp rest cache
                { out with acts := out.acts ++ [PassAct.skippedNoOid tid0] }
              have hval : (processEntries now apiResp rest cache
                  { out with acts := out.acts ++ [PassAct.skippedNoOid tid0] }).acts.get?
                  out.acts.length = some (PassAct.skippedNoOid tid0) := by
                rw [hl]
                exact actsGet_mid_head out.acts (PassAct.skippedNoOid tid0) l
              have ha : PassAct.skippedNoOid tid0 = a :=
                Option.some.inj (hval.symm.trans hact)
              constructor
              · intro ht
                rw [← hb] at ht
                rw [ht] at hskip2
                cases hskip2
              · intro hf heq
                rw [← ha] at heq
                cases heq
          | succ j =>
              have hget2 : rest.get? j = some (tid, b) := hget
              have hact2 : (processEntries now apiResp rest cache
                  { out with acts := out.acts ++ [PassAct.skippedNoOid tid0] }).acts.get?
                  ((out.acts ++ [PassAct.skippedNoOid tid0]).length + j) = some a := by
                have hidx : (out.acts ++ [PassAct.skippedNoOid tid0]).length + j =
                    out.acts.length + (j + 1) := by
                  simp only [List.length_append, List.length_cons, List.length_nil]
                  omega
                rw [hidx]
                exact hact
              exact processEntries_act_at now apiResp rest cache
                { out with acts := out.acts ++ [PassAct.skippedNoOid tid0] }
                j tid b a hget2 hact2
        · simp only [hoid] at hact
          rcases hfc : cacheOrFetch apiResp cache with e | oc
          · simp only [hfc] at hact
            cases i with
            | zero =>
                have hpair : ((tid0, b0) : PyVal × Bucket) = (tid, b) := Option.some.inj hget
                have hb : b0 = b := congrArg Prod.snd hpair
                have ha : PassAct.raised tid0 e = a := Option.some.inj
                  ((actsGet_stop_head out.acts (PassAct.raised tid0 e)).symm.trans hact)
                constructor
                · intro ht
                  rw [← hb] at ht
                  rw [ht] at hskip2
                  cases hskip2
                · intro hf heq
                  rw [← ha] at heq
                  cases heq
            | succ j =>
                cases (actsGet_stop_tail out.acts (PassAct.raised tid0 e) j).symm.trans hact
          rcases oc with _ | closed
          · simp only [hfc] at hact
            cases i with
            | zero =>
                have hpair : ((tid0, b0) : PyVal × Bucket) = (tid, b) := Option.some.inj hget
                have hb : b0 = b := congrArg Prod.snd hpair
                have ha : PassAct.fetchFailed = a := Option.some.inj
                  ((actsGet_stop_head out.acts PassAct.fetchFailed).symm.trans hact)
                constructor
                · intro ht
                  rw [← hb] at ht
                  rw [ht] at hskip2
                  cases hskip2
                · intro hf heq
                  rw [← ha] at heq
                  cases heq
            | succ j =>
                cases (actsGet_stop_tail out.acts PassAct.fetchFailed j).symm.trans hact
          · simp only [hfc] at hact
            rcases hex : extractResultFromClosed closed (toString oid) with e | ores
            · simp only [hex] at hact
              cases i with
              | zero =>
                  have hpair : ((tid0, b0) : PyVal × Bucket) = (tid, b) := Option.some.inj hget
                  have hb : b0 = b := congrArg Prod.snd hpair
                  have ha : PassAct.raised tid0 e = a := Option.some.inj
                    ((actsGet_stop_head out.acts (PassAct.raised tid0 e)).symm.trans hact)
                  constructor
                  · intro ht
                    rw [← hb] at ht
                    rw [ht] at hskip2
                    cases hskip2
                  · intro hf heq
                    rw [← ha] at heq
                    cases heq
              | succ j =>
                  cases (actsGet_stop_tail out.acts (PassAct.raised tid0 e) j).symm.trans hact
            rcases ores with _ | ⟨outcome, profitAmt, entry⟩
            · simp only [hex] at hact
              cases i with
              | zero =>
                  have hpair : ((tid0, b0) : PyVal × Bucket) = (tid, b) := Option.some.inj hget
                  have hb : b0 = b := congrArg Prod.snd hpair
                  obtain ⟨l, hl⟩ := processEntries_acts_extend now apiResp rest
                    (Option.some closed)
                    { st := if b0.option_id.isNone then regUpdateOid out.st tid0 oid else out.st,
                      logs := out.logs, acts := out.acts ++ [PassAct.waited tid0], err := out.err }
                  have hval : (processEntries now apiResp rest (Option.some closed)
                      { st := if b0.option_id.isNone then regUpdateOid out.st tid0 oid else out.st,
                        logs := out.logs, acts := out.acts ++ [PassAct.waited tid0],
                        err := out.err }).acts.get?
                      out.acts.length = some (PassAct.waited tid0) := by
                    rw [hl]
                    exact actsGet_mid_head out.acts (PassAct.waited tid0) l
                  have ha : PassAct.waited tid0 = a :=
                    Option.some.inj (hval.symm.trans hact)
                  constructor
                  · intro ht
                    rw [← hb] at ht
                    rw [ht] at hskip2
                    cases hskip2
                  · intro hf heq
                    rw [← ha] at heq
                    cases heq
              | succ j =>
                  have hget2 : rest.get? j = some (tid, b) := hget
                  have hact2 : (processEntries now apiResp rest (Option.some closed)
                      { st := if b0.option_id.isNone then regUpdateOid out.st tid0 oid else out.st,
                        logs := out.logs, acts := out.acts ++ [PassAct.waited tid0],
                        err := out.err }).acts.get?
                      ((out.acts ++ [PassAct.waited tid0]).length + j) = some a := by
                    have hidx : (out.acts ++ [PassAct.waited tid0]).length + j =
                        out.acts.length + (j + 1) := by
                      simp only [List.length_append, List.length_cons, List.length_nil]
                      omega
                    rw [hidx]
                    exact hact
                  exact processEntries_act_at now apiResp rest (Option.some closed)
                    { st := if b0.option_id.isNone then regUpdateOid out.st tid0 oid else out.st,
                      logs := out.logs, acts := out.acts ++ [PassAct.waited tid0], err := out.err }
                    j tid b a hget2 hact2
            · simp only [hex] at hact
              by_cases hno : pyIsNone outcome = true
              · rw [if_pos hno] at hact
                cases i with
                | zero =>
                    have hpair : ((tid0, b0) : PyVal × Bucket) = (tid, b) := Option.some.inj hget
                    have hb : b0 = b := congrArg Prod.snd hpair
                    obtain ⟨l, hl⟩ := processEntries_acts_extend now apiResp rest
                      (Option.some closed)
                      { st := if b0.option_id.isNone then regUpdateOid out.st tid0 oid else out.st,
                        logs := out.logs, acts := out.acts ++ [PassAct.waited tid0], err := out.err }
                    have hval : (processEntries now apiResp rest (Option.some closed)
                        { st := if b0.option_id.isNone then regUpdateOid out.st tid0 oid else out.st,
                          logs := out.logs, acts := out.acts ++ [PassAct.waited tid0],
                          err := out.err }).acts.get?
                        out.acts.length = some (PassAct.waited tid0) := by
                      rw [hl]
                      exact actsGet_mid_head out.acts (PassAct.waited tid0) l
                    have ha : PassAct.waited tid0 = a :=
                      Option.some.inj (hval.symm.trans hact)
                    constructor
                    · intro ht
                      rw [← hb] at ht
                      rw [ht] at hskip2
                      cases hskip2
                    · intro hf heq
                      rw [← ha] at heq
                      cases heq
                | succ j =>
                    have hget2 : rest.get? j = some (tid, b) := hget
                    have hact2 : (processEntries now apiResp rest (Option.some closed)
                        { st := if b0.option_id.isNone then regUpdateOid out.st tid0 oid else out.st,
                          logs := out.logs, acts := out.acts ++ [PassAct.waited tid0],
                          err := out.err }).acts.get?
                        ((out.acts ++ [PassAct.waited tid0]).length + j) = some a := by
                      have hidx : (out.acts ++ [PassAct.waited tid0]).length + j =
                          out.acts.length + (j + 1) := by
                        simp only [List.length_append, List.length_cons, List.length_nil]
                        omega
                      rw [hidx]
                      exact hact
                    exact processEntries_act_at now apiResp rest (Option.some closed)
                      { st := if b0.option_id.isNone then regUpdateOid out.st tid0 oid else out.st,
                        logs := out.logs, acts := out.acts ++ [PassAct.waited tid0], err := out.err }
                      j tid b a hget2 hact2
              · rw [if_neg hno] at hact
                rcases hbr : buildAndResolve now b0 oid outcome profitAmt entry with e | r
                · simp only [hbr] at hact
                  cases i with
                  | zero =>
                      have hpair : ((tid0, b0) : PyVal × Bucket) = (tid, b) := Option.some.inj hget
                      have hb : b0 = b := congrArg Prod.snd hpair
                      have ha : PassAct.raised tid0 e = a := Option.some.inj
                        ((actsGet_stop_head out.acts (PassAct.raised tid0 e)).symm.trans hact)
                      constructor
                      · intro ht
                        rw [← hb] at ht
                        rw [ht] at hskip2
                        cases hskip2
                      · intro hf heq
                        rw [← ha] at heq
                        cases heq
                  | succ j =>
                      cases (actsGet_stop_tail out.acts (PassAct.raised tid0 e) j).symm.trans hact
                · simp only [hbr] at hact
                  cases i with
                  | zero =>
                      have hpair : ((tid0, b0) : PyVal × Bucket) = (tid, b) := Option.some.inj hget
                      have hb : b0 = b := congrArg Prod.snd hpair
                      obtain ⟨l, hl⟩ := processEntries_acts_extend now apiResp rest
                        (Option.some closed)
                        { st := regErase (if b0.option_id.isNone then regUpdateOid out.st tid0 oid else out.st) tid0,
                          logs := out.logs ++ [r], acts := out.acts ++ [PassAct.resolvedTrade tid0],
                          err := out.err }
                      have hval : (processEntries now apiResp rest (Option.some closed)
                          { st := regErase (if b0.option_id.isNone then regUpdateOid out.st tid0 oid else out.st) tid0,
                            logs := out.logs ++ [r], acts := out.acts ++ [PassAct.resolvedTrade tid0],
                            err := out.err }).acts.get?
                          out.acts.length = some (PassAct.resolvedTrade tid0) := by
                        rw [hl]
                        exact actsGet_mid_head out.acts (PassAct.resolvedTrade tid0) l
                      have ha : PassAct.resolvedTrade tid0 = a :=
                        Option.some.inj (hval.symm.trans hact)
                      constructor
                      · intro ht
                        rw [← hb] at ht
                        rw [ht] at hskip2
                        cases hskip2
                      · intro hf heq
                        rw [← ha] at heq
                        cases heq
                  | succ j =>
                      have hget2 : rest.get? j = some (tid, b) := hget
                      have hact2 : (processEntries now apiResp rest (Option.some closed)
                          { st := regErase (if b0.option_id.isNone then regUpdateOid out.st tid0 oid else out.st) tid0,
                            logs := out.logs ++ [r], acts := out.acts ++ [PassAct.resolvedTrade tid0],
                            err := out.err }).acts.get?
                          ((out.acts ++ [PassAct.resolvedTrade tid0]).length + j) = some a := by
                        have hidx : (out.acts ++ [PassAct.resolvedTrade tid0]).length + j =
                            out.acts.length + (j + 1) := by
                          simp only [List.length_append, List.length_cons, List.length_nil]
                          omega
                        rw [hidx]
                        exact hact
                      exact processEntries_act_at now apiResp rest (Option.some closed)
                        { st := regErase (if b0.option_id.isNone then regUpdateOid out.st tid0 oid else out.st) tid0,
                          logs := out.logs ++ [r], acts := out.acts ++ [PassAct.resolvedTrade tid0],
                          err := out.err }
                        j tid b a hget2 hact2

/-- When every snapshot occurrence of a string key is still inside its
grace window, the entry loop leaves the registry's value for that key
exactly as it was. -/
theorem processEntries_notdue_untouched (now : ℚ) (apiResp : Except PyErr PyVal) :
    ∀ (entries : List (PyVal × Bucket)) (cache : Option (List PyVal)) (out : PassOut)
      (s : String) (bq : Bucket),
      regLookup out.st (.str s) = some bq →
      (∀ p ∈ entries, PyVal.beq p.1 (.str s) = true → skipNotDueCheck now p.2 = true) →
      regLookup (processEntries now apiResp entries cache out).st (.str s) = some bq
  | [], _, out, s, bq => by
      intro hlook _
      simpa [processEntries] using hlook
  | (tid, b) :: rest, cache, out, s, bq => by
      intro hlook hall
      have htail : ∀ p ∈ rest, PyVal.beq p.1 (.str s) = true →
          skipNotDueCheck now p.2 = true :=
        fun p hp => hall p (List.mem_cons_of_mem _ hp)
      unfold processEntries
      by_cases hskip : skipNotDueCheck now b = true
      · rw [if_pos hskip]
        exact processEntries_notdue_untouched now apiResp rest cache
          { out with acts := out.acts ++ [PassAct.skippedNotDue tid] } s bq hlook htail
      · rw [if_neg hskip]
        have hbeqf : PyVal.beq (.str s) tid = false := by
          by_contra hcon
          rw [Bool.not_eq_false] at hcon
          have h0 : tid = .str s := beq_str_left s tid hcon
          apply hskip
          apply hall (tid, b) (List.mem_cons_self _ _)
          rw [h0]
          simp [PyVal.beq]
        rcases hoid : entryOptionId b with e | oo
        · simp only [hoid]
          exact hlook
        rcases oo with _ | oid
        · simp only [hoid]
          exact processEntries_notdue_untouched now apiResp rest cache
            { out with acts := out.acts ++ [PassAct.skippedNoOid tid] } s bq hlook htail
        · simp only [hoid]
          have hlook1 : regLookup
              (if b.option_id.isNone then regUpdateOid out.st tid oid else out.st)
              (.str s) = some bq := by
            rw [regLookup_condUpdate_of_ne out.st b.option_id.isNone s tid oid hbeqf]
            exact hlook
          rcases hfc : cacheOrFetch apiResp cache with e | oc
          · simp only [hfc]
            exact hlook1
          rcases oc with _ | closed
          · simp only [hfc]
            exact hlook1
          · simp only [hfc]
            rcases hex : extractResultFromClosed closed (toString oid) with e | ores
            · simp only [hex]
              exact hlook1
            rcases ores with _ | ⟨outcome, profitAmt, entry⟩
            · simp only [hex]
              exact processEntries_notdue_untouched now apiResp rest (Option.some closed)
                { st := if b.option_id.isNone then regUpdateOid out.st tid oid else out.st,
                  logs := out.logs, acts := out.acts ++ [PassAct.waited tid], err := out.err }
                s bq hlook1 htail
            · simp only [hex]
              by_cases hno : pyIsNone outcome = true
              · rw [if_pos hno]
                exact processEntries_notdue_untouched now apiResp rest (Option.some closed)
                  { st := if b.option_id.isNone then regUpdateOid out.st tid oid else out.st,
                    logs := out.logs, acts := out.acts ++ [PassAct.waited tid], err := out.err }
                  s bq hlook1 htail
              · rw [if_neg hno]
                rcases hbr : buildAndResolve now b oid outcome profitAmt entry with e | r
                · simp only [hbr]
                  exact hlook1
                · simp only [hbr]
                  have hlook2 : regLookup
                      (regErase (if b.option_id.isNone then regUpdateOid out.st tid oid else out.st) tid)
                      (.str s) = some bq := by
                    rw [regLookup_erase_of_ne _ s tid hbeqf]
                    exact hlook1
                  exact processEntries_notdue_untouched now apiResp rest (Option.some closed)
                    { st := regErase (if b.option_id.isNone then regUpdateOid out.st tid oid else out.st) tid,
                      logs := out.logs ++ [r], acts := out.acts ++ [PassAct.resolvedTrade tid],
                      err := out.err }
                    s bq hlook2 htail

/-- C5: expiry gating, per entry and over passes freely mixing due and
not-yet-due entries.  (a) The action a fallback poll pass records at the
position of a snapshot entry whose `expire_ts` is set and whose grace
window has not passed (`now < expire_ts − 0.5`) is the not-yet-due skip —
the entry is not queried against the brokerage — while an entry whose
window has passed is never recorded as that skip.  (b) An entry all of
whose snapshot occurrences are inside the window is also left pending with
its stored bucket untouched at the end of the pass. -/
theorem poll_expiry_gating :
    (∀ (now : ℚ) (apiResp : Except PyErr PyVal) (st : Registry) (i : ℕ)
        (tid : PyVal) (b : Bucket) (a : PassAct),
      (st.filter (fun p => !p.2.resolved)).get? i = some (tid, b) →
      (execFallbackPass now true apiResp st).acts.get? i = some a →
      (skipNotDueCheck now b = true → a = PassAct.skippedNotDue tid) ∧
      (skipNotDueCheck now b = false → a ≠ PassAct.skippedNotDue tid)) ∧
    (∀ (now : ℚ) (apiResp : Except PyErr PyVal) (st : Registry) (s : String) (b : Bucket),
      regLookup st (.str s) = some b →
      (∀ p ∈ st.filter (fun p => !p.2.resolved),
        PyVal.beq p.1 (.str s) = true → skipNotDueCheck now p.2 = true) →
      regLookup (execFallbackPass now true apiResp st).st (.str s) = some b) := by
  constructor
  · intro now apiResp st i tid b a hget hact
    unfold execFallbackPass at hact
    simp only [Bool.not_true, Bool.false_eq_true, if_false] at hact
    by_cases hempty : (st.filter (fun p => !p.2.resolved)).isEmpty = true
    · rw [List.isEmpty_iff] at hempty
      rw [hempty] at hget
      cases i <;> cases hget
    · rw [if_neg hempty] at hact
      apply processEntries_act_at now apiResp (st.filter (fun p => !p.2.resolved))
        Option.none { st := st, logs := [], acts := [], err := Option.none }
        i tid b a hget
      have hidx : ({ st := st, logs := [], acts := [], err := Option.none } :
          PassOut).acts.length + i = i := by simp
      rw [hidx]
      exact hact
  · intro now apiResp st s b hlook hall
    unfold execFallbackPass
    simp only [Bool.not_true, Bool.false_eq_true, if_false]
    by_cases hempty : (st.filter (fun p => !p.2.resolved)).isEmpty = true
    · rw [if_pos hempty]
      exact hlook
    · rw [if_neg hempty]
      exact processEntries_notdue_untouched now apiResp (st.filter (fun p => !p.2.resolved))
        Option.none { st := st, logs := [], acts := [], err := Option.none } s b hlook hall

/-- C5 witness: at `t = 30` the pass leaves the order registered with
`opened_at = 0, duration = 1` (expiry 60) stored exactly as registered,
and the action the `t = 60` pass records at its snapshot position — the
brokerage wait, obtained by evaluating the pass — is not the not-yet-due
skip. -/
theorem poll_expiry_gating_witness :
    regLookup (execFallbackPass 30 true raceApiResp gateRegistry).st (.str "A-1") =
      some gateBucket ∧
    PassAct.waited (.str "A-1") ≠ PassAct.skippedNotDue (.str "A-1") := by
  constructor
  · exact poll_expiry_gating.2 30 raceApiResp gateRegistry "A-1" gateBucket rfl
      (by
        intro p hp _
        have hflt : gateRegistry.filter (fun p => !p.2.resolved) =
            [((.str "A-1" : PyVal), gateBucket)] := rfl
        rw [hflt] at hp
        rw [List.mem_singleton.mp hp]
        decide)
  · exact (poll_expiry_gating.1 60 raceApiResp gateRegistry 0 (.str "A-1") gateBucket
      (PassAct.waited (.str "A-1")) rfl rfl).2 (by decide)

/-- C8 amended: failure isolation in the poll pass works at pass
granularity, not entry granularity.  An exception raised while processing
one snapshot entry ends the pass — the raise is the last recorded action,
so entries after the failing one are not examined in that pass (they are
retried on the next one) — and every entry the pass did not resolve,
including the failing one, is still pending when the pass ends; the
surrounding `_fallback_loop` catches the exception instead of dying. -/
theorem poll_pass_failure_isolation :
    (∀ (now : ℚ) (apiResp : Except PyErr PyVal) (st : Registry) (e : PyErr),
      (execFallbackPass now true apiResp st).err = some e →
      ∃ tid, (execFallbackPass now true apiResp st).acts.getLast? =
        some (PassAct.raised tid e)) ∧
    (∀ (now : ℚ) (apiResp : Except PyErr PyVal) (st : Registry) (s : String),
      (regLookup st (.str s)).isSome = true →
      PassAct.resolvedTrade (PyVal.str s) ∉ (execFallbackPass now true apiResp st).acts →
      (regLookup (execFallbackPass now true apiResp st).st (.str s)).isSome = true) := by
  constructor
  · intro now apiResp st e herr
    unfold execFallbackPass at herr ⊢
    simp only [Bool.not_true, Bool.false_eq_true, if_false] at herr ⊢
    by_cases hemp : (st.filter (fun p => !p.2.resolved)).isEmpty = true
    · rw [if_pos hemp] at herr
      simp at herr
    · rw [if_neg hemp] at herr ⊢
      exact processEntries_err_raised now apiResp _ _ _ rfl e herr
  · intro now apiResp st s hlook hmem
    unfold execFallbackPass at hmem ⊢
    simp only [Bool.not_true, Bool.false_eq_true, if_false] at hmem ⊢
    by_cases hemp : (st.filter (fun p => !p.2.resolved)).isEmpty = true
    · rw [if_pos hemp]
      exact hlook
    · rw [if_neg hemp] at hmem ⊢
      exact processEntries_pending_kept now apiResp _ _ _ s hlook hmem

/-- C8 amended, witness: in the aborted pass over `A-7` (which raises) and
`B-8`, both trades are still pending afterwards. -/
theorem poll_pass_failure_isolation_witness :
    (regLookup isoOut.st (.str "A-7")).isSome = true ∧
    (regLookup isoOut.st (.str "B-8")).isSome = true := by
  constructor
  · exact poll_pass_failure_isolation.2 1060 isoApiResp isoRegistry "A-7" (by decide)
      (by rw [show (execFallbackPass 1060 true isoApiResp isoRegistry).acts =
            [PassAct.raised (.str "A-7") PyErr.valueError] from rfl]
          intro hmem
          exact PassAct.noConfusion (List.mem_singleton.mp hmem))
  · exact poll_pass_failure_isolation.2 1060 isoApiResp isoRegistry "B-8" (by decide)
      (by rw [show (execFallbackPass 1060 true isoApiResp isoRegistry).acts =
            [PassAct.raised (.str "A-7") PyErr.valueError] from rfl]
          intro hmem
          exact PassAct.noConfusion (List.mem_singleton.mp hmem))

/-- C2 counterexample: along the reachable two-tick trace (signal adopted
at t=10, order opened at the scheduled candle open t=60), the tick loop
calls `open_order` a second time — the reinforcement path — while
`has_active_order()` is true: the second recorded call carries
`whileActive = true`. -/
theorem reinforcement_opens_while_active :
    botTradeCalls.map (fun c => (c.regime, c.whileActive)) =
      [("trend", false), ("reinforcement", true)] ∧
    hasActiveOrder botMid = false ∧
    hasActiveOrder (tick botMid botEnvTrade 60).1 = true :=
  ⟨by decide, by decide, by decide⟩

/-- The signal scan never touches the active-order slot. -/
theorem handleSignal_active (s : BotSt) (env : TickEnv) :
    (handleSignal s env).active = s.active := by
  unfold handleSignal
  repeat' split
  all_goals rfl

/-- The signal scan never touches the reinforcement flag. -/
theorem handleSignal_reinforced (s : BotSt) (env : TickEnv) :
    (handleSignal s env).reinforced = s.reinforced := by
  unfold handleSignal
  repeat' split
  all_goals rfl

/-- With an active order the signal scan returns immediately. -/
theorem handleSignal_of_active (s : BotSt) (env : TickEnv)
    (h : hasActiveOrder s = true) : handleSignal s env = s := by
  unfold handleSignal
  rw [if_pos h]

/-- With no pending entry the entry path does nothing. -/
theorem enterTrade_none (s : BotSt) (env : TickEnv) (t : ℚ)
    (h : s.pendingEntry = Option.none) : enterTrade s env t = (s, []) := by
  unfold enterTrade
  rw [h]

/-- Calls made by the entry path record the `has_active_order()` value at
call time. -/
theorem enterTrade_calls_inactive (s : BotSt) (env : TickEnv) (t : ℚ)
    (h : hasActiveOrder s = false) :
    ∀ c ∈ (enterTrade s env t).2, c.whileActive = false := by
  intro c hc
  unfold enterTrade openOrderCall at hc
  rcases hp : s.pendingEntry with _ | pe
  · simp only [hp] at hc
    cases hc
  · simp only [hp] at hc
    by_cases ht : t + 1/20 < pe.nextOpen
    · rw [if_pos ht] at hc
      cases hc
    · rw [if_neg ht] at hc
      by_cases hb : env.buyOk = true
      · simp only [hb, if_true, List.mem_singleton] at hc
        rw [hc, h]
      · simp only [hb, Bool.false_eq_true, if_false, List.mem_singleton] at hc
        rw [hc, h]

/-- The entry path never touches the reinforcement flag. -/
theorem enterTrade_reinforced (s : BotSt) (env : TickEnv) (t : ℚ) :
    (enterTrade s env t).1.reinforced = s.reinforced := by
  unfold enterTrade openOrderCall
  repeat' split
  all_goals rfl

/-- The entry path preserves the single-flight invariant. -/
theorem enterTrade_keeps_inv (s : BotSt) (env : TickEnv) (t : ℚ) (hinv : botInv s) :
    botInv (enterTrade s env t).1 := by
  intro hact
  unfold enterTrade openOrderCall at hact ⊢
  rcases hp : s.pendingEntry with _ | pe
  · simp only [hp] at hact ⊢
  · simp only [hp] at hact ⊢
    by_cases ht : t + 1/20 < pe.nextOpen
    · rw [if_pos ht] at hact ⊢
      exact hinv hact
    · rw [if_neg ht] at hact ⊢
      by_cases hb : env.buyOk = true
      · simp [hb]
      · simp [hb]

/-- Reinforcement calls: always while active, always tagged
`"reinforcement"`, only when the per-trade flag is still clear. -/
theorem tryReinforce_calls (s : BotSt) (env : TickEnv) (t : ℚ) :
    ∀ c ∈ (tryReinforce s env t).2,
      c.whileActive = true ∧ c.regime = "reinforcement" ∧ s.reinforced = false := by
  intro c hc
  unfold tryReinforce execReinforce openOrderCall at hc
  by_cases hact : hasActiveOrder s = true
  · simp only [hact, Bool.not_true, Bool.false_eq_true, if_false] at hc
    by_cases hre : s.reinforced = true
    · rw [if_pos hre] at hc
      cases hc
    · rw [if_neg hre] at hc
      rcases ho : s.active with _ | o
      · simp only [ho] at hc
        cases hc
      · simp only [ho] at hc
        rcases hl : env.lastPrice with _ | lp
        · simp only [hl] at hc
          cases hc
        · simp only [hl] at hc
          have hre' : s.reinforced = false := Bool.eq_false_iff.mpr hre
          by_cases h1 : o.direction = "call" ∧ lp < o.entry_price * (998/1000)
          · rw [if_pos h1] at hc
            by_cases hb : env.buyOk = true
            · simp only [hb, if_true, List.mem_singleton] at hc
              rw [hc]
              exact ⟨rfl, rfl, hre'⟩
            · simp only [hb, Bool.false_eq_true, if_false, List.mem_singleton] at hc
              rw [hc]
              exact ⟨rfl, rfl, hre'⟩
          · rw [if_neg h1] at hc
            by_cases h2 : o.direction = "put" ∧ lp > o.entry_price * (1002/1000)
            · rw [if_pos h2] at hc
              by_cases hb : env.buyOk = true
              · simp only [hb, if_true, List.mem_singleton] at hc
                rw [hc]
                exact ⟨rfl, rfl, hre'⟩
              · simp only [hb, Bool.false_eq_true, if_false, List.mem_singleton] at hc
                rw [hc]
                exact ⟨rfl, rfl, hre'⟩
            · rw [if_neg h2] at hc
              cases hc
  · have hact' : hasActiveOrder s = false := Bool.eq_false_iff.mpr hact
    simp only [hact', Bool.not_false, if_true] at hc
    cases hc

/-- The reinforcement path makes at most one call per invocation. -/
theorem tryReinforce_len (s : BotSt) (env : TickEnv) (t : ℚ) :
    (tryReinforce s env t).2.length ≤ 1 := by
  unfold tryReinforce execReinforce openOrderCall
  repeat' split
  all_goals simp

/-- The reinforcement path never touches the pending entry. -/
theorem tryReinforce_pending (s : BotSt) (env : TickEnv) (t : ℚ) :
    (tryReinforce s env t).1.pendingEntry = s.pendingEntry := by
  unfold tryReinforce execReinforce openOrderCall
  repeat' split
  all_goals rfl

/-- The resolution sweep never touches the pending entry. -/
theorem resolveTrade_pending (s : BotSt) (env : TickEnv) (t : ℚ) :
    (resolveTrade s env t).1.pendingEntry = s.pendingEntry := by
  simp only [resolveTrade]
  repeat' split
  all_goals first
    | rfl
    | rw [tryReinforce_pending]

/-- Calls made from the resolution sweep come from the reinforcement
path. -/
theorem resolveTrade_calls (s : BotSt) (env : TickEnv) (t : ℚ) :
    ∀ c ∈ (resolveTrade s env t).2,
      c.whileActive = true ∧ c.regime = "reinforcement" ∧ s.reinforced = false := by
  intro c hc
  unfold resolveTrade at hc
  by_cases hact : hasActiveOrder s = true
  · simp only [hact, Bool.not_true, Bool.false_eq_true, if_false] at hc
    rcases ho : s.active with _ | o
    · simp only [ho] at hc
      cases hc
    · simp only [ho] at hc
      by_cases hel : t - o.opened_at < o.duration * 60
      · rw [if_pos hel] at hc
        by_cases hw : s.waitStart.isNone = true
        · simp only [hw, if_true] at hc
          have h := tryReinforce_calls _ env t c hc
          exact ⟨h.1, h.2.1, h.2.2⟩
        · simp only [hw, Bool.false_eq_true, if_false] at hc
          have h := tryReinforce_calls _ env t c hc
          exact ⟨h.1, h.2.1, h.2.2⟩
      · rw [if_neg hel] at hc
        cases hc
  · have hact' : hasActiveOrder s = false := Bool.eq_false_iff.mpr hact
    simp only [hact', Bool.not_false, if_true] at hc
    cases hc

/-- The resolution sweep makes at most one call. -/
theorem resolveTrade_len (s : BotSt) (env : TickEnv) (t : ℚ) :
    (resolveTrade s env t).2.length ≤ 1 := by
  simp only [resolveTrade]
  repeat' split
  all_goals first
    | simp
    | apply tryReinforce_len

/-- C2 amended: the entry path of the tick loop preserves single-flight —
`_handle_signal` scans only when no order is active and every entry-path
`open_order` call happens with `has_active_order()` false — but the
reinforcement path deliberately calls `open_order` while an order is
active: every call made with `has_active_order()` true is a
`"reinforcement"` call, it can only happen while the per-trade
`reinforced` flag is still clear, and at most one such call is made per
tick. -/
theorem single_flight_except_reinforcement (s : BotSt) (env : TickEnv) (t : ℚ)
    (hinv : botInv s) :
    botInv (tick s env t).1 ∧
    (∀ c ∈ (tick s env t).2, c.whileActive = true →
      c.regime = "reinforcement" ∧ s.reinforced = false) ∧
    ((tick s env t).2.filter (fun c => c.whileActive)).length ≤ 1 := by
  rcases h2 : enterTrade (handleSignal s env) env t with ⟨s2, c2⟩
  rcases h3 : resolveTrade s2 env t with ⟨s3, c3⟩
  have ht : tick s env t = (s3, c2 ++ c3) := by
    simp only [tick, h2, h3]
  rw [ht]
  have hinv1 : botInv (handleSignal s env) := by
    intro hact
    have hact' : hasActiveOrder s = true := by
      unfold hasActiveOrder at hact ⊢
      rw [handleSignal_active] at hact
      exact hact
    rw [handleSignal_of_active s env hact']
    exact hinv hact'

  have hinv2 : botInv s2 := by
    have := enterTrade_keeps_inv (handleSignal s env) env t hinv1
    rw [h2] at this
    exact this
  have hc2false : ∀ c ∈ c2, c.whileActive = false := by
    by_cases hact : hasActiveOrder (handleSignal s env) = true
    · have hpend : (handleSignal s env).pendingEntry = Option.none := hinv1 hact
      have := enterTrade_none (handleSignal s env) env t hpend
      rw [h2] at this
      intro c hc
      have hc2 : c2 = [] := congrArg Prod.snd this
      rw [hc2] at hc
      cases hc
    · have hact' : hasActiveOrder (handleSignal s env) = false := Bool.eq_false_iff.mpr hact
      have := enterTrade_calls_inactive (handleSignal s env) env t hact'
      rw [h2] at this
      exact this
  have hreinf2 : s2.reinforced = s.reinforced := by
    have := enterTrade_reinforced (handleSignal s env) env t
    rw [h2] at this
    rw [this, handleSignal_reinforced]
  have hc3 : ∀ c ∈ c3, c.whileActive = true ∧ c.regime = "reinforcement" ∧
      s.reinforced = false := by
    have := resolveTrade_calls s2 env t
    rw [h3] at this
    intro c hc
    obtain ⟨ha, hb', hcr⟩ := this c hc
    exact ⟨ha, hb', by rw [← hreinf2]; exact hcr⟩
  refine ⟨?_, ?_, ?_⟩
  · intro hact
    have hpend3 : s3.pendingEntry = s2.pendingEntry := by
      have := resolveTrade_pending s2 env t
      rw [h3] at this
      exact this
    rw [hpend3]
    by_cases hact2 : hasActiveOrder s2 = true
    · exact hinv2 hact2
    · have hact2' : hasActiveOrder s2 = false := Bool.eq_false_iff.mpr hact2
      have hs3 : resolveTrade s2 env t = ({ s2 with waitStart := Option.none }, []) := by
        unfold resolveTrade
        rw [hact2']
        rfl
      rw [h3] at hs3
      have : s3 = { s2 with waitStart := Option.none } := ((Prod.mk.injEq _ _ _ _).mp hs3).1
      rw [this] at hact
      exact absurd hact (by simpa [hasActiveOrder] using hact2)
  · intro c hc hw
    rcases List.mem_append.mp hc with h | h
    · rw [hc2false c h] at hw
      cases hw
    · exact (hc3 c h).2
  · rw [List.filter_append]
    have hf2 : c2.filter (fun c => c.whileActive) = [] := by
      rw [List.filter_eq_nil_iff]
      intro c hc
      simp [hc2false c hc]
    rw [hf2, List.nil_append]
    calc (c3.filter (fun c => c.whileActive)).length
        ≤ c3.length := List.length_filter_le _ _
      _ ≤ 1 := by
          have := resolveTrade_len s2 env t
          rw [h3] at this
          exact this

/-- C2 amended, witness: from the empty initial state the two-tick trace
keeps the invariant, and its only while-active call is the single
reinforcement call. -/
theorem single_flight_except_reinforcement_witness :
    (∀ c ∈ (tick botMid botEnvTrade 60).2, c.whileActive = true →
      c.regime = "reinforcement" ∧ botMid.reinforced = false) ∧
    ((tick botMid botEnvTrade 60).2.filter (fun c => c.whileActive)).length ≤ 1 := by
  have h := single_flight_except_reinforcement botMid botEnvTrade 60
    (fun hact => absurd hact (by decide))
  exact ⟨h.2.1, h.2.2⟩

end ClaimTheorems

end IqBot
